import Mathlib

/-!
Verification of the litecrate binary-serialization buffer (`litecrate.go`)
against its natural-language specification.

The Go code is shallowly embedded:

* `[]byte` data is a `List Nat` whose entries are byte values (`< 256`);
  the slice capacity `cap(data)` is kept in a separate `capacity` field.
  Go allocations (`make`) zero-fill, so bytes exposed by re-slicing the
  backing array inside its capacity are modelled as `0`.
* `uint64` cursor arithmetic is `Nat` arithmetic; the one place where Go
  wrap-around is observable for realistic states — the bounds probe
  `_ = c.data[sum-1]` with `sum = 0`, which wraps to `2^64 - 1` — is
  modelled with an explicit `% 2^64`.
* signed machine integers (`int32`, `int64`) are represented by their
  two's-complement bit patterns (`Nat < 2^w`); the Go sign test `v < 0`
  becomes the sign-bit test `2^(w-1) ≤ v`, additions wrap with an
  explicit `% 2^w`, and `^` is `Nat.xor` on patterns.
* Go `panic` is `Except.error` with a `CrateErr` naming the panic kind.
-/

namespace LiteCrate

/-- `2^64`, the modulus of Go `uint64` arithmetic. -/
def W64 : Nat := 2 ^ 64

/-- Option flags, from the source constant block. -/
def FlagAutoGrow : Nat := 0

def FlagManualGrow : Nat := 1

def FlagGrowDouble : Nat := 0

def FlagGrowExact : Nat := 2

def FlagAutoDouble : Nat := FlagAutoGrow ||| FlagGrowDouble

def FlagAutoExact : Nat := FlagAutoGrow ||| FlagGrowExact

def FlagManualDouble : Nat := FlagManualGrow ||| FlagGrowDouble

def FlagManualExact : Nat := FlagManualGrow ||| FlagGrowExact

def FlagDefault : Nat := FlagAutoDouble

/-- `AccessMode`: determines how the `Access____()` functions handle the
variables passed to them.  The Go type is a `uint8` with five named values;
values outside the five are not representable in this embedding (they hit
the `default: panic` branch of every `Access` switch in Go). -/
inductive AccessMode where
  | write
  | read
  | peek
  | discard
  | slice
deriving DecidableEq, Repr

/-- The kinds of Go `panic` the embedded operations can raise. -/
inductive CrateErr where
  /-- `CheckWrite`: AutoGrow unset and the write would exceed capacity. -/
  | bufferOverflow
  /-- `CheckRead`: the read would move past the write index. -/
  | bufferUnderrun
  /-- A Go runtime "index out of range" panic on a slice/array access. -/
  | indexOutOfRange
  /-- A Go nil-pointer dereference. -/
  | nilDeref
deriving DecidableEq, Repr

/-- A `Crate` is a data buffer with a separate read and write index and
options for how it should grow when needed.  `data` is the visible Go
slice `c.data` (so `data.length` is `len(c.data)`), `capacity` is
`cap(c.data)`. -/
structure Crate where
  data : List Nat
  capacity : Nat
  write : Nat
  read : Nat
  flags : Nat
deriving DecidableEq, Repr

/-- Create new Crate with specified initial size and option flags
(`make` zero-fills). -/
def NewCrate (size : Nat) (flags : Nat) : Crate :=
  { data := List.replicate size 0, capacity := size, write := 0, read := 0, flags := flags }

/-- Create a new Crate from existing byte slice and option flags. -/
def OpenCrate (data : List Nat) (flags : Nat) : Crate :=
  { data := data, capacity := data.length, write := data.length, read := 0, flags := flags }

/-- `c.flags & FlagManualGrow == 0`. -/
def Crate.WillAutoGrow (c : Crate) : Bool :=
  c.flags &&& FlagManualGrow == 0

/-- `c.flags & FlagGrowExact == 0`. -/
def Crate.WillDoubleOnAllocate (c : Crate) : Bool :=
  c.flags &&& FlagGrowExact == 0

/-- Grows the buffer by at least `n` bytes (negative `n` shrinks the view).
`n < 0`: clamp to `-len(data)`, re-slice shorter, clamp `write` then `read`.
`n ≥ 0`: re-slice within capacity when possible (the re-exposed backing
bytes are modelled as `0`, see the header comment), otherwise allocate
`len*2+n` (double policy) or `len+n` (exact policy) and copy. -/
def Crate.Grow (c : Crate) (n : Int) : Crate :=
  if n = 0 then c
  else if n < 0 then
    let m := if (-n) > (c.data.length : Int) then c.data.length else (-n).toNat
    let data := c.data.take (c.data.length - m)
    let l64 := data.length
    let write := if c.write > l64 then l64 else c.write
    let read := if c.read > write then write else c.read
    { c with data := data, write := write, read := read }
  else if (c.data.length : Int) + n ≤ (c.capacity : Int) then
    { c with data := c.data ++ List.replicate n.toNat 0 }
  else
    let newLen := if c.WillDoubleOnAllocate then c.data.length * 2 + n.toNat
                  else c.data.length + n.toNat
    { c with data := c.data ++ List.replicate (newLen - c.data.length) 0,
             capacity := newLen }

/-- The Go conversion `int(u)` of a `uint64` bit pattern. -/
def intOfU64 (u : Nat) : Int :=
  if u < 2 ^ 63 then (u : Int) else (u : Int) - (W64 : Int)

/-- Check whether a write of `size` bytes will succeed; grows the buffer if
flagged AutoGrow, panics (`bufferOverflow`) otherwise.  The final
`_ = c.data[sum-1]` bounds probe is kept: with `sum = 0` the `uint64`
subtraction wraps to `2^64 - 1`, which is out of range for any real
buffer. -/
def Crate.CheckWrite (c : Crate) (size : Nat) : Except CrateErr Crate := do
  let sum := (c.write + size) % W64
  let l64 := c.data.length
  let c ← if sum > l64 then
      if !c.WillAutoGrow then throw CrateErr.bufferOverflow
      else pure (c.Grow (intOfU64 (sum - l64)))
    else pure c
  if (sum + (W64 - 1)) % W64 < c.data.length then pure c
  else throw CrateErr.indexOutOfRange

/-- Check whether a read of `size` bytes will succeed; panics
(`bufferUnderrun`) if it would pass the write index.  The `_ = c.data[sum-1]`
bounds probe wraps at `sum = 0` exactly as in `CheckWrite`. -/
def Crate.CheckRead (c : Crate) (size : Nat) : Except CrateErr Unit := do
  let sum := (c.read + size) % W64
  if sum > c.write then throw CrateErr.bufferUnderrun
  else if (sum + (W64 - 1)) % W64 < c.data.length then pure ()
  else throw CrateErr.indexOutOfRange

/-- Advance read index `n` bytes without using them, clamped to the write
index (never fails). -/
def Crate.DiscardN (c : Crate) (n : Nat) : Crate :=
  let read := (c.read + n) % W64
  { c with read := if read > c.write then c.write else read }

/-- Sets the current write index.  Go mutates `c.write` to `0` *before*
calling `CheckWrite`, so a failing call leaves the crate with `write = 0`
(the mutation survives the panic); the failed state is returned alongside
the error. -/
def Crate.SetWriteIndex (c : Crate) (index : Nat) : Crate × Option CrateErr :=
  let c1 := { c with write := 0 }
  match c1.CheckWrite index with
  | Except.error e => (c1, some e)
  | Except.ok c2 => ({ c2 with write := index }, none)

/-- Sets the current read index.  Go mutates `c.read` to `0` before the
`CheckRead`, so a failing call leaves the crate with `read = 0`. -/
def Crate.SetReadIndex (c : Crate) (index : Nat) : Crate × Option CrateErr :=
  let c1 := { c with read := 0 }
  match c1.CheckRead index with
  | Except.error e => (c1, some e)
  | Except.ok _ => ({ c1 with read := index }, none)

end LiteCrate

namespace LiteCrate

/-- The sub-slice `c.data[c.read : c.read+n]` used by the `Slice` operations. -/
def Crate.sliceAt (c : Crate) (n : Nat) : List Nat :=
  (c.data.drop c.read).take n

/-- Write uint8 to crate (`c.data[c.write] = val`). -/
def Crate.WriteU8 (c : Crate) (val : Nat) : Except CrateErr Crate := do
  let c ← c.CheckWrite 1
  pure { c with data := c.data.set c.write val, write := c.write + 1 }

/-- Read next byte from crate as uint8 without advancing read index. -/
def Crate.PeekU8 (c : Crate) : Except CrateErr Nat := do
  c.CheckRead 1
  pure (c.data.getD c.read 0)

/-- Read next byte from crate as uint8. -/
def Crate.ReadU8 (c : Crate) : Except CrateErr (Crate × Nat) := do
  let val ← c.PeekU8
  pure ({ c with read := c.read + 1 }, val)

/-- Discard next unread byte in crate. -/
def Crate.DiscardU8 (c : Crate) : Crate :=
  c.DiscardN 1

/-- Return byte slice the next unread uint8 occupies. -/
def Crate.SliceU8 (c : Crate) : Except CrateErr (List Nat) := do
  c.CheckRead 1
  pure (c.sliceAt 1)

/-- Write uint32 to crate as 3 bytes (value known to be `≤ 16777215`);
`byte(val >> 8k)` is `(val >>> 8k) % 256`. -/
def Crate.WriteU24 (c : Crate) (val : Nat) : Except CrateErr Crate := do
  let c ← c.CheckWrite 3
  let d := (((c.data.set (c.write + 0) (val % 256)).set
      (c.write + 1) ((val >>> 8) % 256)).set
      (c.write + 2) ((val >>> 16) % 256))
  pure { c with data := d, write := c.write + 3 }

/-- Read next 3 bytes from crate as uint32 without advancing read index. -/
def Crate.PeekU24 (c : Crate) : Except CrateErr Nat := do
  c.CheckRead 3
  pure (c.data.getD (c.read + 0) 0 |||
    (c.data.getD (c.read + 1) 0) <<< 8 |||
    (c.data.getD (c.read + 2) 0) <<< 16)

/-- Read next 3 bytes from crate as uint32. -/
def Crate.ReadU24 (c : Crate) : Except CrateErr (Crate × Nat) := do
  let val ← c.PeekU24
  pure ({ c with read := c.read + 3 }, val)

/-- Discard next 3 unread bytes in crate. -/
def Crate.DiscardU24 (c : Crate) : Crate :=
  c.DiscardN 3

/-- Return byte slice the next unread 3-byte value occupies. -/
def Crate.SliceU24 (c : Crate) : Except CrateErr (List Nat) := do
  c.CheckRead 3
  pure (c.sliceAt 3)

/-- Write uint32 to crate (4 little-endian bytes). -/
def Crate.WriteU32 (c : Crate) (val : Nat) : Except CrateErr Crate := do
  let c ← c.CheckWrite 4
  let d := ((((c.data.set (c.write + 0) (val % 256)).set
      (c.write + 1) ((val >>> 8) % 256)).set
      (c.write + 2) ((val >>> 16) % 256)).set
      (c.write + 3) ((val >>> 24) % 256))
  pure { c with data := d, write := c.write + 4 }

/-- Read next 4 bytes from crate as uint32 without advancing read index. -/
def Crate.PeekU32 (c : Crate) : Except CrateErr Nat := do
  c.CheckRead 4
  pure (c.data.getD (c.read + 0) 0 |||
    (c.data.getD (c.read + 1) 0) <<< 8 |||
    (c.data.getD (c.read + 2) 0) <<< 16 |||
    (c.data.getD (c.read + 3) 0) <<< 24)

/-- Read next 4 bytes from crate as uint32. -/
def Crate.ReadU32 (c : Crate) : Except CrateErr (Crate × Nat) := do
  let val ← c.PeekU32
  pure ({ c with read := c.read + 4 }, val)

/-- Discard next 4 unread bytes in crate. -/
def Crate.DiscardU32 (c : Crate) : Crate :=
  c.DiscardN 4

/-- Return byte slice the next unread uint32 occupies. -/
def Crate.SliceU32 (c : Crate) : Except CrateErr (List Nat) := do
  c.CheckRead 4
  pure (c.sliceAt 4)

/-- Write uint64 to crate as 5 bytes (value known to be `≤ 2^40 - 1`). -/
def Crate.WriteU40 (c : Crate) (val : Nat) : Except CrateErr Crate := do
  let c ← c.CheckWrite 5
  let d := (((((c.data.set (c.write + 0) (val % 256)).set
      (c.write + 1) ((val >>> 8) % 256)).set
      (c.write + 2) ((val >>> 16) % 256)).set
      (c.write + 3) ((val >>> 24) % 256)).set
      (c.write + 4) ((val >>> 32) % 256))
  pure { c with data := d, write := c.write + 5 }

/-- Read next 5 bytes from crate as uint64 without advancing read index. -/
def Crate.PeekU40 (c : Crate) : Except CrateErr Nat := do
  c.CheckRead 5
  pure (c.data.getD (c.read + 0) 0 |||
    (c.data.getD (c.read + 1) 0) <<< 8 |||
    (c.data.getD (c.read + 2) 0) <<< 16 |||
    (c.data.getD (c.read + 3) 0) <<< 24 |||
    (c.data.getD (c.read + 4) 0) <<< 32)

/-- Read next 5 bytes from crate as uint64. -/
def Crate.ReadU40 (c : Crate) : Except CrateErr (Crate × Nat) := do
  let val ← c.PeekU40
  pure ({ c with read := c.read + 5 }, val)

/-- Write uint64 to crate as 6 bytes (value known to be `≤ 2^48 - 1`). -/
def Crate.WriteU48 (c : Crate) (val : Nat) : Except CrateErr Crate := do
  let c ← c.CheckWrite 6
  let d := ((((((c.data.set (c.write + 0) (val % 256)).set
      (c.write + 1) ((val >>> 8) % 256)).set
      (c.write + 2) ((val >>> 16) % 256)).set
      (c.write + 3) ((val >>> 24) % 256)).set
      (c.write + 4) ((val >>> 32) % 256)).set
      (c.write + 5) ((val >>> 40) % 256))
  pure { c with data := d, write := c.write + 6 }

/-- Read next 6 bytes from crate as uint64 without advancing read index. -/
def Crate.PeekU48 (c : Crate) : Except CrateErr Nat := do
  c.CheckRead 6
  pure (c.data.getD (c.read + 0) 0 |||
    (c.data.getD (c.read + 1) 0) <<< 8 |||
    (c.data.getD (c.read + 2) 0) <<< 16 |||
    (c.data.getD (c.read + 3) 0) <<< 24 |||
    (c.data.getD (c.read + 4) 0) <<< 32 |||
    (c.data.getD (c.read + 5) 0) <<< 40)

/-- Read next 6 bytes from crate as uint64. -/
def Crate.ReadU48 (c : Crate) : Except CrateErr (Crate × Nat) := do
  let val ← c.PeekU48
  pure ({ c with read := c.read + 6 }, val)

/-- Write uint64 to crate as 7 bytes (value known to be `≤ 2^56 - 1`). -/
def Crate.WriteU56 (c : Crate) (val : Nat) : Except CrateErr Crate := do
  let c ← c.CheckWrite 7
  let d := (((((((c.data.set (c.write + 0) (val % 256)).set
      (c.write + 1) ((val >>> 8) % 256)).set
      (c.write + 2) ((val >>> 16) % 256)).set
      (c.write + 3) ((val >>> 24) % 256)).set
      (c.write + 4) ((val >>> 32) % 256)).set
      (c.write + 5) ((val >>> 40) % 256)).set
      (c.write + 6) ((val >>> 48) % 256))
  pure { c with data := d, write := c.write + 7 }

/-- Read next 7 bytes from crate as uint64 without advancing read index. -/
def Crate.PeekU56 (c : Crate) : Except CrateErr Nat := do
  c.CheckRead 7
  pure (c.data.getD (c.read + 0) 0 |||
    (c.data.getD (c.read + 1) 0) <<< 8 |||
    (c.data.getD (c.read + 2) 0) <<< 16 |||
    (c.data.getD (c.read + 3) 0) <<< 24 |||
    (c.data.getD (c.read + 4) 0) <<< 32 |||
    (c.data.getD (c.read + 5) 0) <<< 40 |||
    (c.data.getD (c.read + 6) 0) <<< 48)

/-- Read next 7 bytes from crate as uint64. -/
def Crate.ReadU56 (c : Crate) : Except CrateErr (Crate × Nat) := do
  let val ← c.PeekU56
  pure ({ c with read := c.read + 7 }, val)

/-- Write uint64 to crate (8 little-endian bytes). -/
def Crate.WriteU64 (c : Crate) (val : Nat) : Except CrateErr Crate := do
  let c ← c.CheckWrite 8
  let d := ((((((((c.data.set (c.write + 0) (val % 256)).set
      (c.write + 1) ((val >>> 8) % 256)).set
      (c.write + 2) ((val >>> 16) % 256)).set
      (c.write + 3) ((val >>> 24) % 256)).set
      (c.write + 4) ((val >>> 32) % 256)).set
      (c.write + 5) ((val >>> 40) % 256)).set
      (c.write + 6) ((val >>> 48) % 256)).set
      (c.write + 7) ((val >>> 56) % 256))
  pure { c with data := d, write := c.write + 8 }

/-- Read next 8 bytes from crate as uint64 without advancing read index. -/
def Crate.PeekU64 (c : Crate) : Except CrateErr Nat := do
  c.CheckRead 8
  pure (c.data.getD (c.read + 0) 0 |||
    (c.data.getD (c.read + 1) 0) <<< 8 |||
    (c.data.getD (c.read + 2) 0) <<< 16 |||
    (c.data.getD (c.read + 3) 0) <<< 24 |||
    (c.data.getD (c.read + 4) 0) <<< 32 |||
    (c.data.getD (c.read + 5) 0) <<< 40 |||
    (c.data.getD (c.read + 6) 0) <<< 48 |||
    (c.data.getD (c.read + 7) 0) <<< 56)

/-- Read next 8 bytes from crate as uint64. -/
def Crate.ReadU64 (c : Crate) : Except CrateErr (Crate × Nat) := do
  let val ← c.PeekU64
  pure ({ c with read := c.read + 8 }, val)

/-- Discard next 8 unread bytes in crate. -/
def Crate.DiscardU64 (c : Crate) : Crate :=
  c.DiscardN 8

/-- Return byte slice the next unread uint64 occupies. -/
def Crate.SliceU64 (c : Crate) : Except CrateErr (List Nat) := do
  c.CheckRead 8
  pure (c.sliceAt 8)

end LiteCrate

namespace LiteCrate

/-- Mask/min constants from the source, as two's-complement bit patterns. -/
def maskI24 : Nat := 16777215

def minI24 : Nat := 8388608

/-- `maskI32 int32 = -1`: all bits set in 32 bits. -/
def maskI32 : Nat := 2 ^ 32 - 1

def maskI40 : Nat := 1099511627775

def minI40 : Nat := 549755813888

def maskI48 : Nat := 281474976710655

def minI48 : Nat := 140737488355328

def maskI56 : Nat := 72057594037927935

def minI56 : Nat := 36028797018963968

/-- `maskI64 int64 = -1`: all bits set in 64 bits. -/
def maskI64 : Nat := 2 ^ 64 - 1

/-- `twosComplimentShrink` from the source, on two's-complement bit patterns
at native width `w` (32 or 64): `if value < 0 { value = (((value ^
largeMask) + 1) ^ smallMask) + 1 }`.  The sign test `value < 0` is the
sign-bit test; the `+ 1` additions wrap at the native width. -/
def twosComplimentShrink (w : Nat) (value largeMask smallMask : Nat) : Nat :=
  if 2 ^ (w - 1) ≤ value then
    ((((value ^^^ largeMask) + 1) % 2 ^ w ^^^ smallMask) + 1) % 2 ^ w
  else value

/-- `twosComplimentExpand` from the source, on two's-complement bit patterns
at native width `w`: sign-extends a narrow value whose top (narrow) bit is
set, special-casing the most negative narrow value `minSmall`. -/
def twosComplimentExpand (w : Nat) (value minSmall smallMask largeMask : Nat) : Nat :=
  if value &&& minSmall == minSmall then
    if value ^^^ minSmall == 0 then (minSmall - 1) ^^^ largeMask
    else ((((value ^^^ smallMask) + 1) % 2 ^ w ^^^ largeMask) + 1) % 2 ^ w
  else value

/-- Write int32 to crate as 3 bytes (the `*(*uint32)(unsafe.Pointer(&val))`
reinterpretation is the identity on bit patterns). -/
def Crate.WriteI24 (c : Crate) (val : Nat) : Except CrateErr Crate :=
  c.WriteU24 (twosComplimentShrink 32 val maskI32 maskI24)

/-- Read next 3 bytes from crate as int32 without advancing read index. -/
def Crate.PeekI24 (c : Crate) : Except CrateErr Nat := do
  let uVal ← c.PeekU24
  pure (twosComplimentExpand 32 uVal minI24 maskI24 maskI32)

/-- Read next 3 bytes from crate as int32. -/
def Crate.ReadI24 (c : Crate) : Except CrateErr (Crate × Nat) := do
  let val ← c.PeekI24
  pure ({ c with read := c.read + 3 }, val)

/-- Write int32 to crate (bit-pattern reinterpretation into `WriteU32`). -/
def Crate.WriteI32 (c : Crate) (val : Nat) : Except CrateErr Crate :=
  c.WriteU32 val

/-- Read next 4 bytes from crate as int32. -/
def Crate.ReadI32 (c : Crate) : Except CrateErr (Crate × Nat) :=
  c.ReadU32

/-- Read next 4 bytes from crate as int32 without advancing read index. -/
def Crate.PeekI32 (c : Crate) : Except CrateErr Nat :=
  c.PeekU32

/-- Discard next 4 unread bytes in crate. -/
def Crate.DiscardI32 (c : Crate) : Crate :=
  c.DiscardN 4

/-- Return byte slice the next unread int32 occupies. -/
def Crate.SliceI32 (c : Crate) : Except CrateErr (List Nat) := do
  c.CheckRead 4
  pure (c.sliceAt 4)

/-- Write int64 to crate as 5 bytes. -/
def Crate.WriteI40 (c : Crate) (val : Nat) : Except CrateErr Crate :=
  c.WriteU40 (twosComplimentShrink 64 val maskI64 maskI40)

/-- Read next 5 bytes from crate as int64 without advancing read index. -/
def Crate.PeekI40 (c : Crate) : Except CrateErr Nat := do
  let uVal ← c.PeekU40
  pure (twosComplimentExpand 64 uVal minI40 maskI40 maskI64)

/-- Read next 5 bytes from crate as int64. -/
def Crate.ReadI40 (c : Crate) : Except CrateErr (Crate × Nat) := do
  let val ← c.PeekI40
  pure ({ c with read := c.read + 5 }, val)

/-- Write int64 to crate as 6 bytes. -/
def Crate.WriteI48 (c : Crate) (val : Nat) : Except CrateErr Crate :=
  c.WriteU48 (twosComplimentShrink 64 val maskI64 maskI48)

/-- Read next 6 bytes from crate as int64 without advancing read index. -/
def Crate.PeekI48 (c : Crate) : Except CrateErr Nat := do
  let uVal ← c.PeekU48
  pure (twosComplimentExpand 64 uVal minI48 maskI48 maskI64)

/-- Read next 6 bytes from crate as int64. -/
def Crate.ReadI48 (c : Crate) : Except CrateErr (Crate × Nat) := do
  let val ← c.PeekI48
  pure ({ c with read := c.read + 6 }, val)

/-- Write int64 to crate as 7 bytes. -/
def Crate.WriteI56 (c : Crate) (val : Nat) : Except CrateErr Crate :=
  c.WriteU56 (twosComplimentShrink 64 val maskI64 maskI56)

/-- Read next 7 bytes from crate as int64 without advancing read index. -/
def Crate.PeekI56 (c : Crate) : Except CrateErr Nat := do
  let uVal ← c.PeekU56
  pure (twosComplimentExpand 64 uVal minI56 maskI56 maskI64)

/-- Read next 7 bytes from crate as int64. -/
def Crate.ReadI56 (c : Crate) : Except CrateErr (Crate × Nat) := do
  let val ← c.PeekI56
  pure ({ c with read := c.read + 7 }, val)

/-- Write int64 to crate (bit-pattern reinterpretation into `WriteU64`). -/
def Crate.WriteI64 (c : Crate) (val : Nat) : Except CrateErr Crate :=
  c.WriteU64 val

/-- Read next 8 bytes from crate as int64. -/
def Crate.ReadI64 (c : Crate) : Except CrateErr (Crate × Nat) :=
  c.ReadU64

/-- Read next 8 bytes from crate as int64 without advancing read index. -/
def Crate.PeekI64 (c : Crate) : Except CrateErr Nat :=
  c.PeekU64

/-- The two's-complement bit pattern (at width `w`) of an integer. -/
def toPat (w : Nat) (v : Int) : Nat :=
  (v % ((2 ^ w : Nat) : Int)).toNat

/-- The integer denoted by a two's-complement bit pattern at width `w`. -/
def toInt (w : Nat) (p : Nat) : Int :=
  if p < 2 ^ (w - 1) then (p : Int) else (p : Int) - ((2 ^ w : Nat) : Int)

end LiteCrate

namespace LiteCrate

def continueMask : Nat := 128

def countMask : Nat := 127

def finalCountMask : Nat := 255

def countShift : Nat := 7

/-- `countMasks`: a 9-entry array; indexing it at 9 or beyond is a Go
"index out of range" panic. -/
def countMasks : List Nat :=
  [countMask, countMask, countMask, countMask, countMask, countMask, countMask,
    countMask, finalCountMask]

/-- The loop of `WriteUVarint`:
`for val > 0 || bytesWritten == 0 { longer := val > countMask &&
bytesWritten < 8; write byte(val) & countMasks[bytesWritten] | longerBit;
val >>= 7 }`.  The `countMasks[bytesWritten]` array access panics when
`bytesWritten` reaches 9. -/
def writeUVarintLoop (c : Crate) (val bytesWritten : Nat) :
    Except CrateErr (Crate × Nat) :=
  if hguard : val > 0 ∨ bytesWritten = 0 then do
    let longer : Bool := val > countMask ∧ bytesWritten < 8
    let longerBit := (if longer then 1 else 0) <<< countShift
    let c ← c.CheckWrite 1
    match countMasks.get? bytesWritten with
    | none => throw CrateErr.indexOutOfRange
    | some mask =>
        let c := { c with data := c.data.set c.write ((val % 256) &&& mask ||| longerBit),
                          write := c.write + 1 }
        writeUVarintLoop c (val >>> countShift) (bytesWritten + 1)
  else pure (c, bytesWritten)
termination_by val + (1 - bytesWritten)
decreasing_by
  simp only [countShift, Nat.shiftRight_eq_div_pow]
  rcases hguard with hv | hb <;> omega

/-- Write uint64 to crate as msb uvarint (1-9 bytes dependent on value). -/
def Crate.WriteUVarint (c : Crate) (val : Nat) : Except CrateErr (Crate × Nat) :=
  writeUVarintLoop c val 0

/-- The loop of `ReadUVarint`:
`for ; longer && bytesRead < 9; bytesRead += 1 { longer = data[read] &
continueMask == continueMask; val |= (data[read] & countMasks[bytesRead])
<< (bytesRead * countShift); read += 1 }`. -/
def readUVarintLoop (c : Crate) (val bytesRead : Nat) (longer : Bool) :
    Except CrateErr (Crate × Nat × Nat) :=
  if longer ∧ bytesRead < 9 then do
    c.CheckRead 1
    let b := c.data.getD c.read 0
    let longer : Bool := b &&& continueMask == continueMask
    let val := val ||| (b &&& countMasks.getD bytesRead 0) <<< (bytesRead * countShift)
    readUVarintLoop { c with read := c.read + 1 } val (bytesRead + 1) longer
  else pure (c, val, bytesRead)
termination_by 9 - bytesRead

/-- Read next 1-9 bytes from crate as msb uvarint encoded uint64,
returning the value and the byte count. -/
def Crate.ReadUVarint (c : Crate) : Except CrateErr (Crate × Nat × Nat) :=
  readUVarintLoop c 0 0 true

/-- Read next uvarint without advancing read index (read, then restore the
read cursor). -/
def Crate.PeekUVarint (c : Crate) : Except CrateErr (Nat × Nat) := do
  let (_, val, bytesRead) ← c.ReadUVarint
  pure (val, bytesRead)

/-- `findUVarintBytesFromData(data)` counts the bytes of the uvarint at the
head of `data` from continuation bits alone.  The `_ = data[len(data)-1]`
probe panics on empty input (`len-1` is `-1`), and `data[i]` panics when
the input ends inside the varint. -/
def findUVarintBytesLoop (data : List Nat) (i : Nat) (longer : Bool) :
    Except CrateErr Nat :=
  if longer ∧ i < 9 then
    match data.get? i with
    | none => throw CrateErr.indexOutOfRange
    | some b => findUVarintBytesLoop data (i + 1) (b &&& continueMask > 0)
  else pure i
termination_by 9 - i

def findUVarintBytesFromData (data : List Nat) : Except CrateErr Nat :=
  if data.length = 0 then throw CrateErr.indexOutOfRange
  else findUVarintBytesLoop data 0 true

/-- `findUVarintBytesFromValue`: the encoded byte length from the value
alone. -/
def findUVarintBytesFromValue (value : Nat) : Nat :=
  if value ≤ 127 then 1
  else if value ≤ 16383 then 2
  else if value ≤ 2097151 then 3
  else if value ≤ 268435455 then 4
  else if value ≤ 34359738367 then 5
  else if value ≤ 4398046511103 then 6
  else if value ≤ 562949953421311 then 7
  else if value ≤ 72057594037927935 then 8
  else 9

/-- Discard next 1-9 unread bytes in crate, dependent on the size of the
uvarint found at the read index. -/
def Crate.DiscardUVarint (c : Crate) : Except CrateErr (Crate × Nat) := do
  let n ← findUVarintBytesFromData (c.data.drop c.read)
  pure (c.DiscardN n, n)

/-- Return byte slice the next unread uvarint occupies. -/
def Crate.SliceUVarint (c : Crate) : Except CrateErr (List Nat) := do
  let n ← findUVarintBytesFromData (c.data.drop c.read)
  c.CheckRead n
  pure (c.sliceAt n)

/-- `zigZagEncode(v) = uint64((v << 1) ^ (v >> 63))` on the int64 bit
pattern: the left shift wraps mod `2^64` and the arithmetic right shift
by 63 yields all-ones for negative values, all-zeros otherwise. -/
def zigZagEncode (p : Nat) : Nat :=
  (2 * p) % W64 ^^^ (if p < 2 ^ 63 then 0 else W64 - 1)

/-- `zigZagDecode(u) = int64((u >> 1) ^ -(u & 1))`: the uint64 negation
`-(u & 1)` is `(2^64 - (u & 1)) % 2^64`. -/
def zigZagDecode (u : Nat) : Nat :=
  (u >>> 1) ^^^ (W64 - (u &&& 1)) % W64

/-- Write int64 to crate as msb zig-zag varint. -/
def Crate.WriteVarint (c : Crate) (val : Nat) : Except CrateErr (Crate × Nat) :=
  c.WriteUVarint (zigZagEncode val)

/-- Read next 1-9 bytes from crate as msb zig-zag varint encoded int64. -/
def Crate.ReadVarint (c : Crate) : Except CrateErr (Crate × Nat × Nat) := do
  let (c, uVal, bytesRead) ← c.ReadUVarint
  pure (c, zigZagDecode uVal, bytesRead)

/-- Discard next 1-9 unread bytes in crate, dependent on the size of the
varint. -/
def Crate.DiscardVarint (c : Crate) : Except CrateErr (Crate × Nat) :=
  c.DiscardUVarint

/-- Return byte slice the next unread varint occupies. -/
def Crate.SliceVarint (c : Crate) : Except CrateErr (List Nat) :=
  c.SliceUVarint

/-- Write length or nil (uvarint where 0 = nil, 1 = 0, 2 = 1, ...). -/
def Crate.WriteLengthOrNil (c : Crate) (length : Nat) (isNil : Bool) :
    Except CrateErr (Crate × Nat) :=
  let length := length + 1
  let length := if isNil then 0 else length
  c.WriteUVarint length

/-- Peek next length-or-nil: `(length, isNil, bytesRead)`. -/
def Crate.PeekLengthOrNil (c : Crate) : Except CrateErr (Nat × Bool × Nat) := do
  let (length, bytesRead) ← c.PeekUVarint
  let isNil := length == 0
  let length := if isNil then length else length - 1
  pure (length, isNil, bytesRead)

/-- Read next length-or-nil, advancing the read index by its byte count. -/
def Crate.ReadLengthOrNil (c : Crate) : Except CrateErr (Crate × Nat × Bool × Nat) := do
  let (length, isNil, bytesRead) ← c.PeekLengthOrNil
  pure ({ c with read := c.read + bytesRead }, length, isNil, bytesRead)

/-- Discard next length-or-nil prefix (the prefix only, not the payload). -/
def Crate.DiscardLengthOrNil (c : Crate) : Except CrateErr (Crate × Nat) := do
  let bytesDiscarded ← findUVarintBytesFromData (c.data.drop c.read)
  pure (c.DiscardN bytesDiscarded, bytesDiscarded)

/-- Return byte slice the next unread length-or-nil occupies. -/
def Crate.SliceLengthOrNil (c : Crate) : Except CrateErr (List Nat) := do
  let n ← findUVarintBytesFromData (c.data.drop c.read)
  c.CheckRead n
  pure (c.sliceAt n)

end LiteCrate

namespace LiteCrate

/-- `copy(d[pos:pos+src.length], src)`: store `src` into `d` starting at
`pos` (like Go `copy`, bytes falling outside `d` are dropped). -/
def storeBytes (d : List Nat) (pos : Nat) : List Nat → List Nat
  | [] => d
  | b :: rest => storeBytes (d.set pos b) (pos + 1) rest

/-- Write string to crate (raw bytes, no counter).  Strings are byte
lists. -/
def Crate.WriteString (c : Crate) (val : List Nat) : Except CrateErr Crate := do
  let length := val.length
  let c ← c.CheckWrite length
  pure { c with data := storeBytes c.data c.write val, write := c.write + length }

/-- Write string to crate with preceding length counter. -/
def Crate.WriteStringWithCounter (c : Crate) (val : List Nat) : Except CrateErr Crate := do
  let length := val.length
  let (c, _) ← c.WriteLengthOrNil length false
  c.WriteString val

/-- Read next string of specified byte length from crate (`length = 0`
returns the empty string *before* the `CheckRead`). -/
def Crate.ReadString (c : Crate) (length : Nat) : Except CrateErr (Crate × List Nat) := do
  if length = 0 then pure (c, [])
  else do
    c.CheckRead length
    pure ({ c with read := c.read + length }, (c.data.drop c.read).take length)

/-- Read next string with preceding length counter from crate. -/
def Crate.ReadStringWithCounter (c : Crate) : Except CrateErr (Crate × List Nat) := do
  let (c, length, _, _) ← c.ReadLengthOrNil
  c.ReadString length

/-- Read next string with counter without advancing the read index
(read, then restore the cursor). -/
def Crate.PeekStringWithCounter (c : Crate) : Except CrateErr (List Nat) := do
  let (_, val) ← c.ReadStringWithCounter
  pure val

/-- Discard next unread string with preceding length counter. -/
def Crate.DiscardStringWithCounter (c : Crate) : Except CrateErr Crate := do
  let (c, length, _, _) ← c.ReadLengthOrNil
  pure (c.DiscardN length)

/-- The backing array of the crate up to its capacity (bytes past
`len(data)` are the zero bytes of the allocation). -/
def Crate.backing (c : Crate) : List Nat :=
  c.data ++ List.replicate (c.capacity - c.data.length) 0

/-- Return byte slice the next unread string-with-length-counter occupies
(not including counter).  The Go slice expression
`c.data[read+n : read+n+length : read+n+length]` panics when its upper
bound exceeds `cap(c.data)`. -/
def Crate.SliceStringWithCounter (c : Crate) : Except CrateErr (List Nat) := do
  let (length, _, n) ← c.PeekLengthOrNil
  if c.read + n + length ≤ c.capacity then
    pure ((c.backing.drop (c.read + n)).take length)
  else throw CrateErr.indexOutOfRange

/-- Write bytes to crate: a nil or empty slice writes nothing. -/
def Crate.WriteBytes (c : Crate) (val : Option (List Nat)) : Except CrateErr Crate := do
  let length := (val.getD []).length
  if val = none ∨ length = 0 then pure c
  else do
    let c ← c.CheckWrite length
    pure { c with data := storeBytes c.data c.write (val.getD []), write := c.write + length }

/-- Write bytes to crate with preceding length counter (nil iff the slice
reference is nil). -/
def Crate.WriteBytesWithCounter (c : Crate) (val : Option (List Nat)) :
    Except CrateErr Crate := do
  let length := (val.getD []).length
  let isNil := val == none
  let (c, _) ← c.WriteLengthOrNil length isNil
  c.WriteBytes val

/-- Read next byte slice of specified length from crate. -/
def Crate.ReadBytes (c : Crate) (length : Nat) : Except CrateErr (Crate × List Nat) := do
  c.CheckRead length
  pure ({ c with read := c.read + length }, (c.data.drop c.read).take length)

/-- Read next byte slice with preceding length counter from crate (a nil
prefix yields nil). -/
def Crate.ReadBytesWithCounter (c : Crate) : Except CrateErr (Crate × Option (List Nat)) := do
  let (c, length, isNil, _) ← c.ReadLengthOrNil
  if isNil then pure (c, none)
  else do
    let (c, val) ← c.ReadBytes length
    pure (c, some val)

/-- Read next byte slice with counter without advancing the read index. -/
def Crate.PeekBytesWithCounter (c : Crate) : Except CrateErr (Option (List Nat)) := do
  let (_, val) ← c.ReadBytesWithCounter
  pure val

/-- Discard next unread bytes with preceding length counter. -/
def Crate.DiscardBytesWithCounter (c : Crate) : Except CrateErr Crate := do
  let (c, length, _, _) ← c.ReadLengthOrNil
  pure (c.DiscardN length)

/-- Return byte slice the next unread bytes-with-length-counter occupies
(not including counter). -/
def Crate.SliceBytesWithCounter (c : Crate) : Except CrateErr (List Nat) := do
  let (length, _, n) ← c.PeekLengthOrNil
  if c.read + n + length ≤ c.capacity then
    pure ((c.backing.drop (c.read + n)).take length)
  else throw CrateErr.indexOutOfRange

end LiteCrate

namespace LiteCrate

/-- The shape of the generic element-codec parameter
`type AccessFunc[T any] func(val *T, mode AccessMode) []byte`:
the `Option α` argument is the pointed-to value (`none` models a nil
pointer, as passed in Discard/Slice mode), the returned `Option α` is the
value after the call, and the `List Nat` is `sliceModeData`. -/
abbrev AccessFun (α : Type) :=
  Crate → Option α → AccessMode → Except CrateErr (Crate × Option α × List Nat)

/-- `AccessU8`: use the pointed-to uint8 according to mode. -/
def Crate.AccessU8 (c : Crate) (val : Option Nat) (mode : AccessMode) :
    Except CrateErr (Crate × Option Nat × List Nat) :=
  match mode with
  | AccessMode.write =>
      match val with
      | none => throw CrateErr.nilDeref
      | some v => do
          let c ← c.WriteU8 v
          pure (c, val, [])
  | AccessMode.read => do
      let (c, v) ← c.ReadU8
      pure (c, some v, [])
  | AccessMode.peek => do
      let v ← c.PeekU8
      pure (c, some v, [])
  | AccessMode.discard => pure (c.DiscardU8, val, [])
  | AccessMode.slice => do
      let s ← c.SliceU8
      pure (c, val, s)

/-- `AccessI32`: use the pointed-to int32 according to mode. -/
def Crate.AccessI32 (c : Crate) (val : Option Nat) (mode : AccessMode) :
    Except CrateErr (Crate × Option Nat × List Nat) :=
  match mode with
  | AccessMode.write =>
      match val with
      | none => throw CrateErr.nilDeref
      | some v => do
          let c ← c.WriteI32 v
          pure (c, val, [])
  | AccessMode.read => do
      let (c, v) ← c.ReadI32
      pure (c, some v, [])
  | AccessMode.peek => do
      let v ← c.PeekI32
      pure (c, some v, [])
  | AccessMode.discard => pure (c.DiscardI32, val, [])
  | AccessMode.slice => do
      let s ← c.SliceI32
      pure (c, val, s)

/-- `WriteRune` from the source is
`func (c *Crate) WriteRune(val rune) { c.WriteRune(val) }` — it calls
itself with unchanged arguments.  An unguarded self-call cannot be a Lean
recursive definition, so the call is modelled with an explicit stack-depth
fuel: each nested call consumes one frame and no fuel value ever yields a
result (the Go call never returns; the real stack overflows). -/
def writeRuneFuel : Nat → Crate → Nat → Option (Except CrateErr Crate)
  | 0, _, _ => none
  | fuel + 1, c, val => writeRuneFuel fuel c val

/-- Read next 4 bytes from crate as rune (delegates to `ReadI32`). -/
def Crate.ReadRune (c : Crate) : Except CrateErr (Crate × Nat) :=
  c.ReadI32

/-- Read next rune without advancing read index (delegates to `PeekI32`). -/
def Crate.PeekRune (c : Crate) : Except CrateErr Nat :=
  c.PeekI32

/-- `AccessRune` delegates to `AccessI32`. -/
def Crate.AccessRune (c : Crate) (val : Option Nat) (mode : AccessMode) :
    Except CrateErr (Crate × Option Nat × List Nat) :=
  c.AccessI32 val mode

/-- `AccessLengthOrNil`: returns
`(crate, length, readNil, bytesUsed, sliceModeData)`; `length` is the
pointed-to `uint64` after the call (updated only in Read/Peek mode). -/
def Crate.AccessLengthOrNil (c : Crate) (length : Nat) (writeNil : Bool)
    (mode : AccessMode) :
    Except CrateErr (Crate × Nat × Bool × Nat × List Nat) :=
  match mode with
  | AccessMode.write => do
      let (c, n) ← c.WriteLengthOrNil length writeNil
      pure (c, length, false, n, [])
  | AccessMode.read => do
      let (c, l, isNil, n) ← c.ReadLengthOrNil
      pure (c, l, isNil, n, [])
  | AccessMode.peek => do
      let (l, isNil, n) ← c.PeekLengthOrNil
      pure (c, l, isNil, n, [])
  | AccessMode.discard => do
      let (c, n) ← c.DiscardLengthOrNil
      pure (c, length, false, n, [])
  | AccessMode.slice => do
      let s ← c.SliceLengthOrNil
      pure (c, length, false, 0, s)

/-- The Read/Peek element loop of `AccessSlice`:
`for i := 0; i < length; i++ { var elem T; f(&elem, mode); (*slice)[i] =
elem }`.  `cur` is the slice being filled; assigning past its end is a Go
index panic. -/
def accessListReadLoop (f : AccessFun α) (dflt : α) (mode : AccessMode) :
    Crate → Nat → Nat → List α → Except CrateErr (Crate × List α)
  | c, i, length, cur =>
    if _h : i < length then do
      let (c, elemOpt, _) ← f c (some dflt) mode
      let elem := elemOpt.getD dflt
      if i < cur.length then accessListReadLoop f dflt mode c (i + 1) length (cur.set i elem)
      else throw CrateErr.indexOutOfRange
    else pure (c, cur)
termination_by _ i length _ => length - i

/-- The Write element loop of `AccessSlice`. -/
def accessListWriteLoop (f : AccessFun α) (mode : AccessMode) :
    Crate → List α → Except CrateErr Crate
  | c, [] => pure c
  | c, x :: rest => do
      let (c, _, _) ← f c (some x) mode
      accessListWriteLoop f mode c rest

/-- The Discard element loop of the Slice/Discard arm of `AccessSlice`
(`accessElementFunc(nil, Discard)` repeated `length` times). -/
def accessListDiscardLoop (f : AccessFun α) :
    Crate → Nat → Except CrateErr Crate
  | c, 0 => pure c
  | c, k + 1 => do
      let (c, _, _) ← f c none AccessMode.discard
      accessListDiscardLoop f c k

/-- The generic `AccessSlice[T]` helper.  `slice` is the pointed-to Go
slice (`none` = nil slice); `dflt` is the Go zero value of the element
type (`var elem T`).  Mirrors the source switch: the length prefix is
accessed with the *caller's* mode, and in Read/Peek mode the element
codec is likewise invoked with the caller's mode. -/
def AccessSlice {α : Type} (crate : Crate) (mode : AccessMode)
    (slice : Option (List α)) (f : AccessFun α) (dflt : α) :
    Except CrateErr (Crate × Option (List α) × List Nat) := do
  let length := (slice.getD []).length
  let writeNil := slice.isNone
  let (crate, length, readNil, _, _) ← crate.AccessLengthOrNil length writeNil mode
  match mode with
  | AccessMode.read | AccessMode.peek =>
      if readNil then pure (crate, none, [])
      else do
        let cur := match slice with
          | none => List.replicate length dflt
          | some s => s
        let (crate, out) ← accessListReadLoop f dflt mode crate 0 length cur
        pure (crate, some out, [])
  | AccessMode.write =>
      if writeNil then pure (crate, slice, [])
      else do
        let crate ← accessListWriteLoop f mode crate (slice.getD [])
        pure (crate, slice, [])
  | AccessMode.discard | AccessMode.slice => do
      let start := crate.read
      let crate ← accessListDiscardLoop f crate length
      let endIdx := crate.read
      if mode == AccessMode.slice then
        pure ({ crate with read := start }, slice,
          (crate.data.drop start).take (endIdx - start))
      else pure (crate, slice, [])

end LiteCrate

namespace LiteCrate

instance {ε α : Type} [DecidableEq ε] [DecidableEq α] : DecidableEq (Except ε α) :=
  fun x y =>
    match x, y with
    | Except.ok a, Except.ok b =>
        if h : a = b then isTrue (congrArg Except.ok h)
        else isFalse (fun hc => h (Except.ok.inj hc))
    | Except.error a, Except.error b =>
        if h : a = b then isTrue (congrArg Except.error h)
        else isFalse (fun hc => h (Except.error.inj hc))
    | Except.ok _, Except.error _ => isFalse (fun hc => Except.noConfusion hc)
    | Except.error _, Except.ok _ => isFalse (fun hc => Except.noConfusion hc)

/-- xor with the all-ones mask of width `w` is complement within `2^w`. -/
theorem xor_ones {w x : Nat} (h : x < 2 ^ w) : x ^^^ (2 ^ w - 1) = 2 ^ w - 1 - x := by
  have h1 : x ^^^ (2 ^ w - 1) =
      ((BitVec.ofNat w x) ^^^ (BitVec.allOnes w)).toNat := by
    rw [BitVec.toNat_xor]
    simp [BitVec.toNat_ofNat, Nat.mod_eq_of_lt h, BitVec.toNat_allOnes]
  rw [h1, BitVec.xor_allOnes, BitVec.toNat_not]
  simp [BitVec.toNat_ofNat, Nat.mod_eq_of_lt h]

/-- or-ing a low part (`< 2^k`) with a shifted high part is addition. -/
theorem lor_shift_add {x : Nat} (y k : Nat) (h : x < 2 ^ k) :
    x ||| y <<< k = x + y * 2 ^ k := by
  rw [Nat.shiftLeft_eq, Nat.lor_comm, mul_comm y (2 ^ k), Nat.add_comm]
  exact (Nat.mul_add_lt_is_or h y).symm

end LiteCrate

namespace LiteCrate

/-- Zig-zag decode inverts zig-zag encode on every 64-bit pattern. -/
theorem zigZag_roundtrip_pat (p : Nat) (hp : p < W64) :
    zigZagDecode (zigZagEncode p) = p := by
  have hW : W64 = 2 ^ 64 := rfl
  unfold zigZagEncode zigZagDecode
  by_cases hlt : p < 2 ^ 63
  · rw [if_pos hlt]
    have h2 : (2 * p) % W64 = 2 * p := Nat.mod_eq_of_lt (by rw [hW]; omega)
    rw [h2, Nat.xor_zero]
    have h3 : 2 * p &&& 1 = 0 := by rw [Nat.and_one_is_mod]; omega
    rw [h3, Nat.sub_zero, Nat.mod_self, Nat.xor_zero, Nat.shiftRight_eq_div_pow]
    omega
  · rw [if_neg hlt]
    set e := (2 * p) % W64 with hedef
    have he : e = 2 * p - 2 ^ 64 := by rw [hedef, hW]; omega
    have heb : e < 2 ^ 64 := by rw [hedef, hW]; exact Nat.mod_lt _ (by norm_num)
    have hx : e ^^^ (W64 - 1) = 2 ^ 64 - 1 - e := by
      rw [hW]; exact xor_ones heb
    rw [hx]
    set u := 2 ^ 64 - 1 - e with hudef
    have hu : u = 2 ^ 64 - 1 - (2 * p - 2 ^ 64) := by rw [hudef, he]
    have hodd : u &&& 1 = 1 := by
      rw [Nat.and_one_is_mod]
      rw [hW] at hp
      omega
    have hdiv : u >>> 1 = 2 ^ 64 - 1 - p := by
      rw [Nat.shiftRight_eq_div_pow]
      rw [hW] at hp
      omega
    rw [hodd, hdiv]
    have hm : (W64 - 1) % W64 = 2 ^ 64 - 1 := by rw [hW]; omega
    rw [hm, xor_ones (by omega)]
    rw [hW] at hp
    omega

end LiteCrate

namespace LiteCrate

theorem toPat_lt_64 (v : Int) : toPat 64 v < 2 ^ 64 := by
  unfold toPat
  omega

theorem toInt_toPat_64 (v : Int) (h1 : -(2 ^ 63) ≤ v) (h2 : v < 2 ^ 63) :
    toInt 64 (toPat 64 v) = v := by
  unfold toPat toInt
  split_ifs with h
  · omega
  · omega

/-- Round-trip a uint64 through `WriteUVarint` on a fresh auto-grow crate
followed by `ReadUVarint` over the written bytes; `none` when either
operation panics. -/
def uvarintRoundTrip (u : Nat) : Option Nat :=
  match (NewCrate 16 FlagDefault).WriteUVarint u with
  | Except.error _ => none
  | Except.ok (c, _) =>
      match c.ReadUVarint with
      | Except.error _ => none
      | Except.ok (_, val, _) => some val

/-- The byte count reported by `WriteUVarint` on a fresh auto-grow crate;
`none` when the write panics. -/
def uvarintWriteCount (u : Nat) : Option Nat :=
  match (NewCrate 16 FlagDefault).WriteUVarint u with
  | Except.error _ => none
  | Except.ok (_, n) => some n

end LiteCrate

namespace LiteCrate

theorem and_128_of_ge {x : Nat} (h : x < 256) (h2 : 128 ≤ x) : x &&& 128 = 128 := by
  have hd : x / 2 ^ 7 % 2 = 1 := by omega
  have h3 := Nat.and_two_pow x 7
  rw [Nat.testBit_to_div_mod, hd] at h3
  simpa using h3

theorem and_128_of_lt {x : Nat} (h : x < 128) : x &&& 128 = 0 := by
  have hd : x / 2 ^ 7 % 2 = 0 := by omega
  have h3 := Nat.and_two_pow x 7
  rw [Nat.testBit_to_div_mod, hd] at h3
  simpa using h3

theorem and_127_eq_mod (x : Nat) : x &&& 127 = x % 128 :=
  Nat.and_pow_two_sub_one_eq_mod x 7

theorem and_255_eq_mod (x : Nat) : x &&& 255 = x % 256 :=
  Nat.and_pow_two_sub_one_eq_mod x 8

/-- `x ||| 128 = x + 128` for a 7-bit `x`. -/
theorem lor_128_eq_add {x : Nat} (h : x < 128) : x ||| 128 = x + 128 := by
  have h2 := Nat.mul_add_lt_is_or (show x < 2 ^ 7 by omega) 1
  have h3 : 2 ^ 7 * 1 = 128 := by norm_num
  rw [h3] at h2
  rw [Nat.lor_comm, ← h2, Nat.add_comm]

/-- `CheckWrite` succeeds without mutating the crate whenever the bytes fit
in the current buffer (and at least one byte is in play, avoiding the
`sum = 0` wrap-around of the bounds probe). -/
theorem CheckWrite_ok {c : Crate} {size : Nat}
    (h1 : c.write + size ≤ c.data.length) (h2 : c.data.length < W64)
    (h3 : 0 < c.write + size) :
    c.CheckWrite size = Except.ok c := by
  unfold Crate.CheckWrite
  have hW : W64 = 2 ^ 64 := rfl
  have hsum : (c.write + size) % W64 = c.write + size := by
    rw [hW] at h2 ⊢
    exact Nat.mod_eq_of_lt (by omega)
  rw [hsum]
  rw [if_neg (by omega)]
  simp only [pure_bind]
  rw [if_pos]
  · rfl
  rw [hW] at h2
  rw [hW]
  omega

/-- `CheckRead` succeeds whenever the requested bytes lie below the write
index (and the probe index does not wrap). -/
theorem CheckRead_ok {c : Crate} {size : Nat}
    (h1 : c.read + size ≤ c.write) (h2 : c.write ≤ c.data.length)
    (h3 : c.data.length < W64) (h4 : 0 < c.read + size) :
    c.CheckRead size = Except.ok () := by
  unfold Crate.CheckRead
  have hW : W64 = 2 ^ 64 := rfl
  have hsum : (c.read + size) % W64 = c.read + size := by
    rw [hW] at h3 ⊢
    exact Nat.mod_eq_of_lt (by omega)
  rw [hsum]
  rw [if_neg (by omega)]
  rw [if_pos]
  · rfl
  rw [hW] at h3
  rw [hW]
  omega

end LiteCrate

namespace LiteCrate

/-- The byte list that the `WriteUVarint` loop emits starting from state
`(val, bytesWritten)` — a pure twin of `writeUVarintLoop` used to state
its specification. -/
def uvarintBytes (val bw : Nat) : List Nat :=
  if val > 0 ∨ bw = 0 then
    ((val % 256) &&& countMasks.getD bw 0 |||
      (if val > countMask ∧ bw < 8 then 128 else 0)) ::
      uvarintBytes (val >>> countShift) (bw + 1)
  else []
termination_by val + (1 - bw)
decreasing_by
  simp only [countShift, Nat.shiftRight_eq_div_pow]
  omega

theorem uvarintBytes_nil {val bw : Nat} (h : ¬(val > 0 ∨ bw = 0)) :
    uvarintBytes val bw = [] := by
  rw [uvarintBytes, if_neg h]

theorem uvarintBytes_length_pos {val bw : Nat} (h : val > 0 ∨ bw = 0) :
    0 < (uvarintBytes val bw).length := by
  rw [uvarintBytes, if_pos h]
  simp

/-- The loop emits at most `9 - bw` bytes when `val` fits in the remaining
room. -/
theorem uvarintBytes_length_le (val bw : Nat) (hbw : bw ≤ 9)
    (hval : val < 2 ^ (7 * (9 - bw))) :
    (uvarintBytes val bw).length ≤ 9 - bw := by
  by_cases h : val > 0 ∨ bw = 0
  · rw [uvarintBytes, if_pos h]
    have hbw8 : bw < 9 := by
      rcases h with h | h
      · by_contra hc
        have : bw = 9 := by omega
        subst this
        simp at hval
        omega
      · omega
    have hrec : val >>> countShift < 2 ^ (7 * (9 - (bw + 1))) := by
      simp only [countShift, Nat.shiftRight_eq_div_pow]
      rw [Nat.div_lt_iff_lt_mul (by norm_num : 0 < (2 : Nat) ^ 7)]
      have h2 : 7 * (9 - bw) = 7 * (9 - (bw + 1)) + 7 := by omega
      rw [h2, pow_add] at hval
      exact hval
    have hlen := uvarintBytes_length_le (val >>> countShift) (bw + 1) (by omega) hrec
    simp only [List.length_cons]
    omega
  · rw [uvarintBytes_nil h]
    simp
termination_by val + (1 - bw)
decreasing_by
  simp only [countShift, Nat.shiftRight_eq_div_pow]
  omega

end LiteCrate

namespace LiteCrate

theorem ok_bind {α β : Type} (a : α) (f : α → Except CrateErr β) :
    (Except.ok a : Except CrateErr α) >>= f = f a := rfl

theorem pure_eq_ok {α : Type} (a : α) : (pure a : Except CrateErr α) = Except.ok a :=
  rfl

theorem shiftRight7_bound {val bw : Nat} (hbw8 : bw < 9)
    (hval : val < 2 ^ (7 * (9 - bw))) :
    val >>> countShift < 2 ^ (7 * (9 - (bw + 1))) := by
  simp only [countShift, Nat.shiftRight_eq_div_pow]
  rw [Nat.div_lt_iff_lt_mul (by norm_num : 0 < (2 : Nat) ^ 7)]
  have h2 : 7 * (9 - bw) = 7 * (9 - (bw + 1)) + 7 := by omega
  rw [h2, pow_add] at hval
  exact hval

theorem writeUVarintLoop_spec (val bw : Nat) (c : Crate)
    (hbw : bw ≤ 9) (hval : val < 2 ^ (7 * (9 - bw)))
    (hspace : c.write + (uvarintBytes val bw).length ≤ c.data.length)
    (hlen : c.data.length < W64) :
    writeUVarintLoop c val bw =
      Except.ok ({ c with
                    data := storeBytes c.data c.write (uvarintBytes val bw),
                    write := c.write + (uvarintBytes val bw).length },
                 bw + (uvarintBytes val bw).length) := by
  by_cases hguard2 : val > 0 ∨ bw = 0
  · have hbw8 : bw < 9 := by
      rcases hguard2 with h | h
      · by_contra hc
        have h9 : bw = 9 := by omega
        subst h9
        simp at hval
        omega
      · omega
    have hcount1 : 0 < (uvarintBytes val bw).length := uvarintBytes_length_pos hguard2
    have hcw : c.CheckWrite 1 = Except.ok c := CheckWrite_ok (by omega) hlen (by omega)
    rw [writeUVarintLoop, dif_pos hguard2, hcw, ok_bind]
    have hmask : countMasks.get? bw = some (countMasks.getD bw 0) := by
      interval_cases bw <;> rfl
    rw [hmask]
    have hbit : (if decide (val > countMask ∧ bw < 8) = true then 1 else 0) <<< countShift =
        (if val > countMask ∧ bw < 8 then 128 else 0) := by
      by_cases hl : val > countMask ∧ bw < 8 <;> simp [hl, countShift]
    have hcons : uvarintBytes val bw =
        ((val % 256) &&& countMasks.getD bw 0 |||
          (if val > countMask ∧ bw < 8 then 128 else 0)) ::
          uvarintBytes (val >>> countShift) (bw + 1) := by
      rw [uvarintBytes, if_pos hguard2]
    rw [hcons] at hspace ⊢
    simp only [List.length_cons] at hspace
    have hrec := writeUVarintLoop_spec (val >>> countShift) (bw + 1)
      ({ c with
          data := c.data.set c.write
            ((val % 256) &&& countMasks.getD bw 0 |||
              (if val > countMask ∧ bw < 8 then 128 else 0)),
          write := c.write + 1 })
      (by omega) (shiftRight7_bound hbw8 hval)
      (by simp only [List.length_set]; omega)
      (by simp only [List.length_set]; exact hlen)
    simp only [hbit]
    rw [hrec]
    simp only [storeBytes, List.length_cons]
    have e1 : c.write + 1 + (uvarintBytes (val >>> countShift) (bw + 1)).length
        = c.write + ((uvarintBytes (val >>> countShift) (bw + 1)).length + 1) := by omega
    have e2 : bw + 1 + (uvarintBytes (val >>> countShift) (bw + 1)).length
        = bw + ((uvarintBytes (val >>> countShift) (bw + 1)).length + 1) := by omega
    rw [e1, e2]
  · rw [writeUVarintLoop, dif_neg hguard2, uvarintBytes_nil hguard2]
    simp only [storeBytes, Nat.add_zero]
    rfl
termination_by val + (1 - bw)
decreasing_by
  simp only [countShift, Nat.shiftRight_eq_div_pow]
  omega

end LiteCrate

namespace LiteCrate

theorem countMasks_getD_lt8 {bw : Nat} (h : bw < 8) : countMasks.getD bw 0 = 127 := by
  interval_cases bw <;> rfl

theorem readUVarintLoop_spec (val bw acc : Nat) (c : Crate) (rest : List Nat)
    (hguard2 : val > 0 ∨ bw = 0)
    (hbw : bw ≤ 9) (hval : val < 2 ^ (7 * (9 - bw)))
    (hacc : acc < 2 ^ (bw * 7))
    (hdata : c.data.drop c.read = uvarintBytes val bw ++ rest)
    (hwrite : c.read + (uvarintBytes val bw).length ≤ c.write)
    (hwlen : c.write ≤ c.data.length) (hlen : c.data.length < W64) :
    readUVarintLoop c acc bw true =
      Except.ok ({ c with read := c.read + (uvarintBytes val bw).length },
                 acc + val * 2 ^ (bw * 7),
                 bw + (uvarintBytes val bw).length) := by
  have hbw8 : bw < 9 := by
    rcases hguard2 with h | h
    · by_contra hc
      have h9 : bw = 9 := by omega
      subst h9
      simp at hval
      omega
    · omega
  have hcons : uvarintBytes val bw =
      ((val % 256) &&& countMasks.getD bw 0 |||
        (if val > countMask ∧ bw < 8 then 128 else 0)) ::
        uvarintBytes (val >>> countShift) (bw + 1) := by
    rw [uvarintBytes, if_pos hguard2]
  set b0 := (val % 256) &&& countMasks.getD bw 0 |||
      (if val > countMask ∧ bw < 8 then 128 else 0) with hb0
  have hlist : c.data.get? c.read = some b0 := by
    have h1 : (c.data.drop c.read).get? 0 = c.data.get? (c.read + 0) := by
      rw [List.get?_eq_getElem?, List.get?_eq_getElem?, List.getElem?_drop]
    rw [hdata, hcons] at h1
    simpa using h1.symm
  have hgetD : c.data.getD c.read 0 = b0 := by
    rw [List.getD_eq_getElem?_getD, ← List.get?_eq_getElem?, hlist]
    rfl
  have hcount1 : 0 < (uvarintBytes val bw).length := uvarintBytes_length_pos hguard2
  have hcr : c.CheckRead 1 = Except.ok () := CheckRead_ok (by omega) hwlen hlen (by omega)
  rw [readUVarintLoop, if_pos (show (true = true ∧ bw < 9) from ⟨rfl, hbw8⟩), hcr, ok_bind,
    hgetD]
  simp only []
  have hPmul : 2 ^ ((bw + 1) * 7) = 128 * 2 ^ (bw * 7) := by
    have h7 : (bw + 1) * 7 = bw * 7 + 7 := by ring
    rw [h7, pow_add]
    ring
  by_cases hsplit : val > countMask ∧ bw < 8
  · -- continuation byte: recurse
    have hm : countMasks.getD bw 0 = 127 := countMasks_getD_lt8 hsplit.2
    have hval127 : 127 < val := hsplit.1
    have hb0val : b0 = val % 128 + 128 := by
      rw [hb0, if_pos hsplit, hm, and_127_eq_mod, Nat.mod_mod_of_dvd _ (by norm_num)]
      exact lor_128_eq_add (Nat.mod_lt _ (by norm_num))
    have hb0c : b0 &&& continueMask = 128 := by
      rw [hb0val]
      exact and_128_of_ge (by omega) (by omega)
    have hb0m : b0 &&& countMasks.getD bw 0 = val % 128 := by
      rw [hm, and_127_eq_mod, hb0val]
      omega
    have haccn : acc ||| (b0 &&& countMasks.getD bw 0) <<< (bw * countShift) =
        acc + (val % 128) * 2 ^ (bw * 7) := by
      rw [hb0m, countShift]
      exact lor_shift_add _ _ hacc
    have hlonger : (b0 &&& continueMask == continueMask) = true := by
      rw [hb0c]
      rfl
    rw [hlonger, haccn]
    -- inductive hypothesis on the tail of the encoding
    have hrec := readUVarintLoop_spec (val >>> countShift) (bw + 1)
      (acc + (val % 128) * 2 ^ (bw * 7))
      ({ c with read := c.read + 1 }) rest
      (Or.inl (by
        simp only [countShift, Nat.shiftRight_eq_div_pow]
        omega))
      (by omega) (shiftRight7_bound (by omega) hval)
      (by
        have hx : (val % 128) * 2 ^ (bw * 7) ≤ 127 * 2 ^ (bw * 7) :=
          Nat.mul_le_mul_right _ (by omega)
        rw [hPmul]
        omega)
      (by
        have hdd : c.data.drop (c.read + 1) = (c.data.drop c.read).drop 1 := by
          rw [List.drop_drop, Nat.add_comm]
        rw [hdd, hdata, hcons]
        rfl)
      (by
        rw [hcons, List.length_cons] at hwrite
        simpa using (by omega : c.read + 1 + (uvarintBytes (val >>> countShift) (bw + 1)).length ≤ c.write))
      hwlen hlen
    rw [hrec]
    rw [hcons, List.length_cons]
    have hvread : c.read + 1 + (uvarintBytes (val >>> countShift) (bw + 1)).length =
        c.read + ((uvarintBytes (val >>> countShift) (bw + 1)).length + 1) := by omega
    have hvbw : bw + 1 + (uvarintBytes (val >>> countShift) (bw + 1)).length =
        bw + ((uvarintBytes (val >>> countShift) (bw + 1)).length + 1) := by omega
    have hvval : acc + (val % 128) * 2 ^ (bw * 7) + (val >>> countShift) * 2 ^ ((bw + 1) * 7) =
        acc + val * 2 ^ (bw * 7) := by
      simp only [countShift, Nat.shiftRight_eq_div_pow]
      rw [hPmul]
      have hdecomp : val % 128 + 128 * (val / 128) = val := Nat.mod_add_div _ _
      calc acc + (val % 128) * 2 ^ (bw * 7) + val / 2 ^ 7 * (128 * 2 ^ (bw * 7))
          = acc + (val % 128 + 128 * (val / 128)) * 2 ^ (bw * 7) := by ring_nf
        _ = acc + val * 2 ^ (bw * 7) := by rw [hdecomp]
    rw [hvread, hvbw, hvval]
  · -- final byte: loop exits on the next iteration
    have hvlt : val < 128 := by
      rcases Nat.lt_or_ge bw 8 with h8 | h8
      · simp only [countMask] at hsplit
        omega
      · have h88 : bw = 8 := by omega
        subst h88
        simpa using hval
    have hb0val : b0 = val := by
      rw [hb0, if_neg hsplit]
      rcases Nat.lt_or_ge bw 8 with h8 | h8
      · rw [countMasks_getD_lt8 h8, and_127_eq_mod]
        simp
        omega
      · have h88 : bw = 8 := by omega
        subst h88
        show val % 256 &&& 255 ||| 0 = val
        rw [and_255_eq_mod]
        simp
        omega
    have hb0c : b0 &&& continueMask = 0 := by
      rw [hb0val]
      exact and_128_of_lt hvlt
    have hlonger : (b0 &&& continueMask == continueMask) = false := by
      rw [hb0c]
      rfl
    have hb0m : b0 &&& countMasks.getD bw 0 = val := by
      rcases Nat.lt_or_ge bw 8 with h8 | h8
      · rw [countMasks_getD_lt8 h8, and_127_eq_mod, hb0val]
        omega
      · have h88 : bw = 8 := by omega
        subst h88
        rw [hb0val]
        show val &&& 255 = val
        rw [and_255_eq_mod]
        omega
    have haccn : acc ||| (b0 &&& countMasks.getD bw 0) <<< (bw * countShift) =
        acc + val * 2 ^ (bw * 7) := by
      rw [hb0m, countShift]
      exact lor_shift_add _ _ hacc
    rw [hlonger, haccn]
    have hexit : readUVarintLoop { c with read := c.read + 1 }
        (acc + val * 2 ^ (bw * 7)) (bw + 1) false =
        pure ({ c with read := c.read + 1 }, acc + val * 2 ^ (bw * 7), bw + 1) := by
      rw [readUVarintLoop, if_neg (by simp)]
    rw [hexit]
    have htail : uvarintBytes (val >>> countShift) (bw + 1) = [] := by
      apply uvarintBytes_nil
      simp only [countShift, Nat.shiftRight_eq_div_pow]
      omega
    rw [hcons, htail, List.length_cons, List.length_nil]
    rfl
termination_by val + (1 - bw)
decreasing_by
  simp only [countShift, Nat.shiftRight_eq_div_pow]
  omega

end LiteCrate

namespace LiteCrate

theorem storeBytes_length (src : List Nat) : ∀ (d : List Nat) (pos : Nat),
    (storeBytes d pos src).length = d.length := by
  induction src with
  | nil => intro d pos; rfl
  | cons b rest ih =>
      intro d pos
      rw [storeBytes, ih, List.length_set]

theorem storeBytes_spec (src : List Nat) : ∀ (d : List Nat) (pos : Nat),
    pos + src.length ≤ d.length →
    storeBytes d pos src = d.take pos ++ src ++ d.drop (pos + src.length) := by
  induction src with
  | nil =>
      intro d pos h
      simp [storeBytes]
  | cons b rest ih =>
      intro d pos h
      simp only [List.length_cons] at h
      have hpos : pos < d.length := by omega
      rw [storeBytes, ih (d.set pos b) (pos + 1) (by simp only [List.length_set]; omega)]
      rw [List.set_eq_take_append_cons_drop, if_pos hpos]
      have hA : (List.take pos d).length = pos := by
        simp only [List.length_take]
        omega
      rw [List.take_append_eq_append_take, List.drop_append_eq_append_drop, hA]
      rw [List.take_take]
      have h1 : min (pos + 1) pos = pos := by omega
      have h2 : pos + 1 - pos = 1 := by omega
      have h3 : pos + 1 + rest.length - pos = rest.length + 1 := by omega
      rw [h1, h2, h3]
      rw [List.drop_eq_nil_of_le (by omega : (List.take pos d).length ≤ pos + 1 + rest.length)]
      rw [List.drop_succ_cons, List.drop_drop]
      have h4 : pos + 1 + rest.length = pos + (b :: rest).length := by
        simp only [List.length_cons]
        omega
      rw [h4]
      simp

theorem WriteUVarint_spec (c : Crate) (val : Nat) (hval : val < 2 ^ 63)
    (hspace : c.write + (uvarintBytes val 0).length ≤ c.data.length)
    (hlen : c.data.length < W64) :
    c.WriteUVarint val =
      Except.ok ({ c with
                    data := storeBytes c.data c.write (uvarintBytes val 0),
                    write := c.write + (uvarintBytes val 0).length },
                 (uvarintBytes val 0).length) := by
  have h := writeUVarintLoop_spec val 0 c (by omega)
    (by omega : val < 2 ^ (7 * (9 - 0))) hspace hlen
  · simpa [Crate.WriteUVarint] using h

theorem ReadUVarint_spec (c : Crate) (val : Nat) (rest : List Nat) (hval : val < 2 ^ 63)
    (hdata : c.data.drop c.read = uvarintBytes val 0 ++ rest)
    (hwrite : c.read + (uvarintBytes val 0).length ≤ c.write)
    (hwlen : c.write ≤ c.data.length) (hlen : c.data.length < W64) :
    c.ReadUVarint =
      Except.ok ({ c with read := c.read + (uvarintBytes val 0).length },
                 val, (uvarintBytes val 0).length) := by
  have h := readUVarintLoop_spec val 0 0 c rest (Or.inr rfl) (by omega)
    (by omega : val < 2 ^ (7 * (9 - 0))) (by norm_num) hdata hwrite hwlen hlen
  simpa [Crate.ReadUVarint] using h

theorem uvarintRoundTrip_spec (val : Nat) (hval : val < 2 ^ 63) :
    uvarintRoundTrip val = some val ∧
    uvarintWriteCount val = some ((uvarintBytes val 0).length) := by
  have hlen9 : (uvarintBytes val 0).length ≤ 9 := by
    simpa using uvarintBytes_length_le val 0 (by omega)
      (by omega : val < 2 ^ (7 * (9 - 0)))
  have h16 : (NewCrate 16 FlagDefault).data.length = 16 := by simp [NewCrate]
  have hw := WriteUVarint_spec (NewCrate 16 FlagDefault) val hval
    (by rw [h16]; simp [NewCrate]; omega) (by rw [h16]; norm_num [W64])
  have hc1data : (storeBytes (NewCrate 16 FlagDefault).data (NewCrate 16 FlagDefault).write
      (uvarintBytes val 0)) = uvarintBytes val 0 ++ (List.replicate 16 0).drop (uvarintBytes val 0).length := by
    rw [show (NewCrate 16 FlagDefault).write = 0 from rfl,
      show (NewCrate 16 FlagDefault).data = List.replicate 16 0 from rfl]
    rw [storeBytes_spec _ _ _ (by simp; omega)]
    simp
  have hr := ReadUVarint_spec
    ({ NewCrate 16 FlagDefault with
        data := storeBytes (NewCrate 16 FlagDefault).data (NewCrate 16 FlagDefault).write
          (uvarintBytes val 0),
        write := (NewCrate 16 FlagDefault).write + (uvarintBytes val 0).length })
    val ((List.replicate 16 0).drop (uvarintBytes val 0).length) hval
    (by
      simp only [hc1data]
      rw [show (NewCrate 16 FlagDefault).read = 0 from rfl]
      rfl)
    (by simp [NewCrate])
    (by
      simp only []
      rw [storeBytes_length, h16]
      simp [NewCrate]
      omega)
    (by
      simp only []
      rw [storeBytes_length, h16]
      norm_num [W64])
  constructor
  · rw [uvarintRoundTrip, hw]
    simp only []
    rw [hr]
  · rw [uvarintWriteCount, hw]

end LiteCrate

namespace LiteCrate

/-- `WriteUVarint`'s loop panics with an index-out-of-range on
`countMasks[9]` whenever the value does not fit in the bytes that remain:
after the ninth byte the loop shifts by only 7 of the 8 bits it consumed,
so any value with bit 63 set re-enters the loop with `bytesWritten = 9`. -/
theorem writeUVarintLoop_err (val bw : Nat) (c : Crate)
    (hbw : bw ≤ 9) (hval : 2 ^ (7 * (9 - bw)) ≤ val)
    (hspace : c.write + (9 - bw) + 1 ≤ c.data.length)
    (hlen : c.data.length < W64) :
    writeUVarintLoop c val bw = Except.error CrateErr.indexOutOfRange := by
  have hvpos : 0 < val := by
    have : 0 < 2 ^ (7 * (9 - bw)) := Nat.pos_pow_of_pos _ (by norm_num)
    omega
  have hcw : c.CheckWrite 1 = Except.ok c := CheckWrite_ok (by omega) hlen (by omega)
  rw [writeUVarintLoop, dif_pos (Or.inl hvpos), hcw, ok_bind]
  by_cases h9 : bw = 9
  · subst h9
    rfl
  · have hbw8 : bw ≤ 8 := by omega
    have hmask : countMasks.get? bw = some (countMasks.getD bw 0) := by
      interval_cases bw <;> rfl
    rw [hmask]
    have hrec := writeUVarintLoop_err (val >>> countShift) (bw + 1)
      ({ c with
          data := c.data.set c.write
            ((val % 256) &&& countMasks.getD bw 0 |||
              (if decide (val > countMask ∧ bw < 8) = true then 1 else 0) <<< countShift),
          write := c.write + 1 })
      (by omega)
      (by
        simp only [countShift, Nat.shiftRight_eq_div_pow]
        have h2 : 7 * (9 - bw) = 7 * (9 - (bw + 1)) + 7 := by omega
        rw [h2, pow_add] at hval
        exact Nat.le_div_iff_mul_le (by norm_num : 0 < (2 : Nat) ^ 7) |>.mpr hval)
      (by simp only [List.length_set]; omega)
      (by simp only [List.length_set]; exact hlen)
    exact hrec
termination_by 10 - bw

/-- C1: zig-zag decode inverts zig-zag encode for every 64-bit signed
integer, and `WriteUVarint` followed by `ReadUVarint` round-trips every
value below `2^63` (in particular 0, 1, 127, 128 and `2^63 - 1`) writing
between 1 and 9 bytes — but `WriteUVarint (2^64 - 1)` panics with a Go
index-out-of-range on `countMasks[9]` instead of round-tripping, so the
claim fails on the code for the listed input `2^64 - 1`. -/
theorem C1_zigzag_bijection_uvarint_roundtrip :
    (∀ v : Int, -(2 ^ 63) ≤ v → v < 2 ^ 63 →
        toInt 64 (zigZagDecode (zigZagEncode (toPat 64 v))) = v) ∧
    (∀ u : Nat, u < 2 ^ 63 →
        uvarintRoundTrip u = some u ∧
        ∃ k, uvarintWriteCount u = some k ∧ 1 ≤ k ∧ k ≤ 9) ∧
    (NewCrate 16 FlagDefault).WriteUVarint (2 ^ 64 - 1) =
      Except.error CrateErr.indexOutOfRange := by
  refine ⟨?_, ?_, ?_⟩
  · intro v h1 h2
    rw [zigZag_roundtrip_pat (toPat 64 v) (toPat_lt_64 v)]
    exact toInt_toPat_64 v h1 h2
  · intro u hu
    obtain ⟨hrt, hwc⟩ := uvarintRoundTrip_spec u hu
    refine ⟨hrt, (uvarintBytes u 0).length, hwc,
      uvarintBytes_length_pos (Or.inr rfl), ?_⟩
    simpa using uvarintBytes_length_le u 0 (by omega) (by omega)
  · exact writeUVarintLoop_err (2 ^ 64 - 1) 0 (NewCrate 16 FlagDefault)
      (by omega) (by norm_num) (by simp [NewCrate]) (by simp [NewCrate, W64])

/-- Witness for C1 at concrete inputs. -/
theorem C1_zigzag_bijection_uvarint_roundtrip_witness :
    toInt 64 (zigZagDecode (zigZagEncode (toPat 64 (-5)))) = -5 ∧
    uvarintRoundTrip 127 = some 127 :=
  ⟨C1_zigzag_bijection_uvarint_roundtrip.1 (-5) (by decide) (by decide),
   (C1_zigzag_bijection_uvarint_roundtrip.2.1 127 (by decide)).1⟩

end LiteCrate

namespace LiteCrate

theorem err_bind {α β : Type} (e : CrateErr) (f : α → Except CrateErr β) :
    (Except.error e : Except CrateErr α) >>= f = Except.error e := rfl

/-- One successful iteration of the `ReadUVarint` loop. -/
theorem readUVarintLoop_step (c : Crate) (acc bw : Nat) (hbw : bw < 9)
    (hread : c.read + 1 ≤ c.write) (hwlen : c.write ≤ c.data.length)
    (hlen : c.data.length < W64) :
    readUVarintLoop c acc bw true =
      readUVarintLoop { c with read := c.read + 1 }
        (acc ||| (c.data.getD c.read 0 &&& countMasks.getD bw 0) <<< (bw * countShift))
        (bw + 1) (c.data.getD c.read 0 &&& continueMask == continueMask) := by
  have hcr := CheckRead_ok (show c.read + 1 ≤ c.write by omega) hwlen hlen (by omega)
  rw [readUVarintLoop, if_pos (show (true = true ∧ bw < 9) from ⟨rfl, hbw⟩), hcr, ok_bind]

/-- The loop exits as soon as `bytesRead` reaches 9, continuation flag or
not. -/
theorem readUVarintLoop_exit9 (c : Crate) (acc : Nat) (longer : Bool) :
    readUVarintLoop c acc 9 longer = Except.ok (c, acc, 9) := by
  rw [readUVarintLoop, if_neg (by simp)]
  rfl

/-- Whenever the decode loop returns, it has consumed at most `9 - bw`
further bytes, advanced the read cursor by exactly the bytes consumed, and
touched nothing else. -/
theorem readUVarintLoop_le9 (bw : Nat) (c : Crate) (acc : Nat) (longer : Bool) :
    ∀ c' v br, readUVarintLoop c acc bw longer = Except.ok (c', v, br) →
      bw ≤ br ∧ br ≤ max bw 9 ∧ c'.read = c.read + (br - bw) ∧
      c'.write = c.write ∧ c'.data = c.data := by
  intro c' v br h
  by_cases hguard2 : longer = true ∧ bw < 9
  · rw [readUVarintLoop, if_pos hguard2] at h
    rcases hcr : c.CheckRead 1 with e | u
    · rw [hcr, err_bind] at h
      exact absurd h (by simp)
    · rw [hcr, ok_bind] at h
      have hrec := readUVarintLoop_le9 (bw + 1) { c with read := c.read + 1 }
        (acc ||| (c.data.getD c.read 0 &&& countMasks.getD bw 0) <<< (bw * countShift))
        (c.data.getD c.read 0 &&& continueMask == continueMask) c' v br h
      simp only [] at hrec
      obtain ⟨h1, h2, h3, h4, h5⟩ := hrec
      refine ⟨by omega, by omega, by simp [h3]; omega, h4, h5⟩
  · rw [readUVarintLoop, if_neg hguard2] at h
    have h2 : c = c' ∧ acc = v ∧ bw = br := by
      have := Except.ok.inj h
      exact ⟨congrArg Prod.fst this, congrArg (fun p => p.2.1) this,
        congrArg (fun p => p.2.2) this⟩
    obtain ⟨hc, _, hbr⟩ := h2
    subst hc
    subst hbr
    refine ⟨le_refl _, by omega, by omega, rfl, rfl⟩
termination_by 9 - bw

/-- C6 counterexample: decoding an input of ten continuation-flagged bytes
(`0xFF` ten times) does not fail at all — `ReadUVarint` silently stops
after nine bytes and returns `2^64 - 1`; no `MalformedVarint` error exists
anywhere in the code. -/
theorem C6_malformed_varint_cex :
    (OpenCrate (List.replicate 10 255) FlagDefault).ReadUVarint =
      Except.ok (⟨List.replicate 10 255, 10, 10, 9, 0⟩, 2 ^ 64 - 1, 9) := by

  show readUVarintLoop ⟨List.replicate 10 255, 10, 10, 0, 0⟩ 0 0 true = _
  rw [readUVarintLoop_step _ _ _ (by norm_num) (by norm_num) (by norm_num) (by norm_num [W64])]
  show readUVarintLoop ⟨List.replicate 10 255, 10, 10, 1, 0⟩ 127 1 true = _
  rw [readUVarintLoop_step _ _ _ (by norm_num) (by norm_num) (by norm_num) (by norm_num [W64])]
  show readUVarintLoop ⟨List.replicate 10 255, 10, 10, 2, 0⟩ 16383 2 true = _
  rw [readUVarintLoop_step _ _ _ (by norm_num) (by norm_num) (by norm_num) (by norm_num [W64])]
  show readUVarintLoop ⟨List.replicate 10 255, 10, 10, 3, 0⟩ 2097151 3 true = _
  rw [readUVarintLoop_step _ _ _ (by norm_num) (by norm_num) (by norm_num) (by norm_num [W64])]
  show readUVarintLoop ⟨List.replicate 10 255, 10, 10, 4, 0⟩ 268435455 4 true = _
  rw [readUVarintLoop_step _ _ _ (by norm_num) (by norm_num) (by norm_num) (by norm_num [W64])]
  show readUVarintLoop ⟨List.replicate 10 255, 10, 10, 5, 0⟩ 34359738367 5 true = _
  rw [readUVarintLoop_step _ _ _ (by norm_num) (by norm_num) (by norm_num) (by norm_num [W64])]
  show readUVarintLoop ⟨List.replicate 10 255, 10, 10, 6, 0⟩ 4398046511103 6 true = _
  rw [readUVarintLoop_step _ _ _ (by norm_num) (by norm_num) (by norm_num) (by norm_num [W64])]
  show readUVarintLoop ⟨List.replicate 10 255, 10, 10, 7, 0⟩ 562949953421311 7 true = _
  rw [readUVarintLoop_step _ _ _ (by norm_num) (by norm_num) (by norm_num) (by norm_num [W64])]
  show readUVarintLoop ⟨List.replicate 10 255, 10, 10, 8, 0⟩ 72057594037927935 8 true = _
  rw [readUVarintLoop_step _ _ _ (by norm_num) (by norm_num) (by norm_num) (by norm_num [W64])]
  show readUVarintLoop ⟨List.replicate 10 255, 10, 10, 9, 0⟩ (2 ^ 64 - 1) 9 true = _
  rw [readUVarintLoop_exit9]


/-- C6 amended: on inputs with more than 9 continuation-flagged bytes the
decoder does not fail with a `MalformedVarint` error (no such error exists
in the code); `ReadUVarint` consumes at most 9 bytes, advances the read
cursor by exactly the bytes consumed, and mutates nothing else. -/
theorem C6_uvarint_decode_stops_at_nine :
    ∀ (c c' : Crate) (v br : Nat), c.ReadUVarint = Except.ok (c', v, br) →
      br ≤ 9 ∧ c'.read = c.read + br ∧ c'.write = c.write ∧ c'.data = c.data := by
  intro c c' v br h
  have h2 := readUVarintLoop_le9 0 c 0 true c' v br h
  obtain ⟨h1, h2, h3, h4, h5⟩ := h2
  rw [Nat.max_def] at h2
  simp only [Nat.sub_zero] at h3
  refine ⟨by split at h2 <;> omega, by omega, h4, h5⟩

/-- Witness for C6 at a concrete one-byte input. -/
theorem C6_uvarint_decode_stops_at_nine_witness :
    ∃ c' v br, (OpenCrate [0] FlagDefault).ReadUVarint = Except.ok (c', v, br) ∧
      br ≤ 9 ∧ c'.read = (OpenCrate [0] FlagDefault).read + br := by
  have h : (OpenCrate [0] FlagDefault).ReadUVarint =
      Except.ok (⟨[0], 1, 1, 1, 0⟩, 0, 1) := by
    show readUVarintLoop ⟨[0], 1, 1, 0, 0⟩ 0 0 true = _
    rw [readUVarintLoop_step _ _ _ (by norm_num) (by norm_num) (by norm_num)
      (by norm_num [W64])]
    show readUVarintLoop ⟨[0], 1, 1, 1, 0⟩ 0 1 false = _
    rw [readUVarintLoop, if_neg (by simp)]
    rfl
  have h2 := C6_uvarint_decode_stops_at_nine _ _ _ _ h
  exact ⟨_, _, _, h, h2.1, h2.2.1⟩

end LiteCrate

namespace LiteCrate

/-- A manual-grow crate fails `CheckWrite` with BufferOverflow (and grows
nothing) when the bytes do not fit. -/
theorem CheckWrite_overflow {c : Crate} {n : Nat}
    (hman : c.WillAutoGrow = false)
    (hlt : c.data.length < c.write + n) (hsz : c.write + n < W64) :
    c.CheckWrite n = Except.error CrateErr.bufferOverflow := by
  unfold Crate.CheckWrite
  have hsum : (c.write + n) % W64 = c.write + n := Nat.mod_eq_of_lt hsz
  rw [hsum, if_pos (by omega), hman]
  rfl

/-- `CheckRead` fails with BufferUnderrun when the bytes are not there. -/
theorem CheckRead_underrun {c : Crate} {n : Nat}
    (hlt : c.write < c.read + n) (hsz : c.read + n < W64) :
    c.CheckRead n = Except.error CrateErr.bufferUnderrun := by
  unfold Crate.CheckRead
  have hsum : (c.read + n) % W64 = c.read + n := Nat.mod_eq_of_lt hsz
  rw [hsum, if_pos (by omega)]
  rfl

/-- Growing by a positive amount extends the buffer by at least that
amount. -/
theorem Grow_len_ge (c : Crate) (k : Nat) (hk : 0 < k) :
    c.data.length + k ≤ (c.Grow (k : Int)).data.length := by
  unfold Crate.Grow
  rw [if_neg (by exact_mod_cast Nat.pos_iff_ne_zero.mp hk),
    if_neg (by omega : ¬((k : Int) < 0))]
  split_ifs with h1 h2 <;>
    simp only [List.length_append, List.length_replicate, Int.toNat_natCast] <;>
    omega

/-- An auto-grow crate's `CheckWrite` grows instead of failing. -/
theorem CheckWrite_grow_ok {c : Crate} {n : Nat}
    (hauto : c.WillAutoGrow = true)
    (hlt : c.data.length < c.write + n) (hsz : c.write + n < 2 ^ 63) :
    c.CheckWrite n =
      Except.ok (c.Grow (((c.write + n - c.data.length : Nat) : Int))) ∧
    c.write + n ≤ (c.Grow (((c.write + n - c.data.length : Nat) : Int))).data.length := by
  have hW : W64 = 2 ^ 64 := rfl
  have hsum : (c.write + n) % W64 = c.write + n := Nat.mod_eq_of_lt (by rw [hW]; omega)
  have hglen := Grow_len_ge c (c.write + n - c.data.length) (by omega)
  have hge : c.write + n ≤ (c.Grow (((c.write + n - c.data.length : Nat) : Int))).data.length := by
    omega
  refine ⟨?_, hge⟩
  unfold Crate.CheckWrite
  rw [hsum, if_pos (by omega), hauto]
  have hint : intOfU64 (c.write + n - c.data.length) =
      ((c.write + n - c.data.length : Nat) : Int) := by
    unfold intOfU64
    rw [if_pos (by omega)]
  simp only [Bool.not_true, Bool.false_eq_true, if_false, hint, pure_bind]
  rw [if_pos]
  · rfl
  rw [hW]
  omega

/-- C8: `CheckWrite(n)` succeeds whenever the bytes fit (`write + n ≤
len(data)`) — except at `write + n = 0`, where the `data[sum-1]` probe
wraps and panics; it fails with BufferOverflow exactly when capacity is
insufficient and auto-grow is off, and grows instead of failing when
auto-grow is on.  `CheckRead(n)` succeeds whenever `read + n ≤ write` —
except at `read + n = 0`, same wrap — and fails with BufferUnderrun
otherwise, never touching the buffer.  The two trailing conjuncts exhibit
the `n = 0` panics on a fresh crate, where the claim says both checks
succeed. -/
theorem C8_checkwrite_checkread :
    (∀ (c : Crate) (n : Nat), 0 < c.write + n → c.write + n ≤ c.data.length →
        c.data.length < W64 → c.CheckWrite n = Except.ok c) ∧
    (∀ (c : Crate) (n : Nat), c.WillAutoGrow = false →
        c.data.length < c.write + n → c.write + n < W64 →
        c.CheckWrite n = Except.error CrateErr.bufferOverflow) ∧
    (∀ (c : Crate) (n : Nat), c.WillAutoGrow = true →
        c.data.length < c.write + n → c.write + n < 2 ^ 63 →
        ∃ c2, c.CheckWrite n = Except.ok c2 ∧ c.write + n ≤ c2.data.length) ∧
    (∀ (c : Crate) (n : Nat), 0 < c.read + n → c.read + n ≤ c.write →
        c.write ≤ c.data.length → c.data.length < W64 →
        c.CheckRead n = Except.ok ()) ∧
    (∀ (c : Crate) (n : Nat), c.write < c.read + n → c.read + n < W64 →
        c.CheckRead n = Except.error CrateErr.bufferUnderrun) ∧
    (NewCrate 4 FlagDefault).CheckWrite 0 = Except.error CrateErr.indexOutOfRange ∧
    (NewCrate 4 FlagDefault).CheckRead 0 = Except.error CrateErr.indexOutOfRange :=
  ⟨fun _ n h1 h2 h3 => CheckWrite_ok h2 h3 h1,
   fun _ n hm h1 h2 => CheckWrite_overflow hm h1 h2,
   fun c n ha h1 h2 => ⟨_, (CheckWrite_grow_ok ha h1 h2).1, (CheckWrite_grow_ok ha h1 h2).2⟩,
   fun _ n h1 h2 h3 h4 => CheckRead_ok h2 h3 h4 h1,
   fun _ n h1 h2 => CheckRead_underrun h1 h2,
   by decide, by decide⟩

/-- Witness for C8 at concrete inputs. -/
theorem C8_checkwrite_checkread_witness :
    (NewCrate 4 FlagDefault).CheckWrite 1 = Except.ok (NewCrate 4 FlagDefault) ∧
    (NewCrate 4 FlagManualExact).CheckWrite 9 = Except.error CrateErr.bufferOverflow :=
  ⟨C8_checkwrite_checkread.1 (NewCrate 4 FlagDefault) 1 (by decide) (by decide) (by decide),
   C8_checkwrite_checkread.2.1 (NewCrate 4 FlagManualExact) 9 (by decide) (by decide)
     (by decide)⟩

end LiteCrate

namespace LiteCrate

/-- The crate cursor invariant `0 ≤ read ≤ write ≤ len(data)`. -/
def crateInv (c : Crate) : Prop :=
  c.read ≤ c.write ∧ c.write ≤ c.data.length

instance (c : Crate) : Decidable (crateInv c) := by
  unfold crateInv
  infer_instance

/-- `CheckWrite(0)` on a crate whose write cursor is 0 panics: the probe
index wraps to `2^64 - 1`. -/
theorem CheckWrite_zero_err {c : Crate} (hw : c.write = 0)
    (hlen : c.data.length < W64) :
    c.CheckWrite 0 = Except.error CrateErr.indexOutOfRange := by
  have hW : W64 = 2 ^ 64 := rfl
  have h2 : (0 + (W64 - 1)) % W64 = W64 - 1 := by rw [hW]; norm_num
  unfold Crate.CheckWrite
  rw [hw]
  have h1 : (0 + 0) % W64 = 0 := by norm_num
  rw [h1, if_neg (by omega), pure_bind]
  show (if (0 + (W64 - 1)) % W64 < c.data.length then pure c else
    throw CrateErr.indexOutOfRange) = Except.error CrateErr.indexOutOfRange
  rw [h2, if_neg (by omega)]
  rfl

/-- A non-negative `Grow` touches only the data buffer and capacity. -/
theorem Grow_fields (c : Crate) (k : Nat) :
    (c.Grow (k : Int)).write = c.write ∧ (c.Grow (k : Int)).read = c.read ∧
    (c.Grow (k : Int)).flags = c.flags := by
  unfold Crate.Grow
  split_ifs with h1 h2 h3 <;> first
    | exact ⟨rfl, rfl, rfl⟩
    | exact absurd h2 (by omega)

/-- What a successful `CheckWrite` guarantees (for realistically sized
crates): cursors and flags unchanged, and the requested bytes now fit. -/
theorem CheckWrite_ok_post {c c2 : Crate} {size : Nat}
    (hlen : c.data.length < 2 ^ 62) (hsz : c.write + size < 2 ^ 62)
    (h : c.CheckWrite size = Except.ok c2) :
    c2.write = c.write ∧ c2.read = c.read ∧ c.write + size ≤ c2.data.length ∧
    c2.flags = c.flags := by
  have hW : W64 = 2 ^ 64 := rfl
  by_cases hfit : c.write + size ≤ c.data.length
  · by_cases h0 : 0 < c.write + size
    · rw [CheckWrite_ok hfit (by omega) h0] at h
      have hc : c = c2 := Except.ok.inj h
      subst hc
      exact ⟨rfl, rfl, hfit, rfl⟩
    · have hw0 : c.write = 0 := by omega
      have hs0 : size = 0 := by omega
      rw [hs0, CheckWrite_zero_err hw0 (by rw [hW]; omega)] at h
      exact absurd h (by simp)
  · by_cases hauto : c.WillAutoGrow
    · have hg := @CheckWrite_grow_ok c size (by simpa using hauto) (by omega) (by omega)
      rw [hg.1] at h
      have hc : c.Grow (((c.write + size - c.data.length : Nat) : Int)) = c2 :=
        Except.ok.inj h
      have hf := Grow_fields c (c.write + size - c.data.length)
      rw [hc] at hf
      have hg2 := hg.2
      rw [hc] at hg2
      exact ⟨hf.1, hf.2.1, hg2, hf.2.2⟩
    · have hm : c.WillAutoGrow = false := by
        simpa using hauto
      rw [CheckWrite_overflow hm (by omega) (by rw [hW]; omega)] at h
      exact absurd h (by simp)

/-- What a successful `CheckRead` guarantees. -/
theorem CheckRead_ok_post {c : Crate} {size : Nat}
    (h : c.CheckRead size = Except.ok ()) :
    (c.read + size) % W64 ≤ c.write := by
  by_contra hc
  unfold Crate.CheckRead at h
  rw [if_pos (by omega)] at h
  exact absurd h (by simp)

theorem Grow_inv (c : Crate) (k : Int) (h : crateInv c) : crateInv (c.Grow k) := by
  obtain ⟨h1, h2⟩ := h
  unfold Crate.Grow crateInv
  split_ifs with hk1 hk2 hk3 <;>
    (try simp only [List.length_take, List.length_append, List.length_replicate]) <;>
    constructor <;> (first | omega | (split_ifs <;> omega))

theorem DiscardN_inv (c : Crate) (n : Nat) (h : crateInv c) : crateInv (c.DiscardN n) := by
  obtain ⟨h1, h2⟩ := h
  constructor
  · show (if (c.read + n) % W64 > c.write then c.write else (c.read + n) % W64) ≤ c.write
    split_ifs <;> omega
  · exact h2

theorem SetReadIndex_inv (c : Crate) (i : Nat) (hi : i < W64) (h : crateInv c) :
    crateInv (c.SetReadIndex i).1 := by
  obtain ⟨h1, h2⟩ := h
  rcases hcr : ({ c with read := 0 } : Crate).CheckRead i with e | u
  · have heq : (c.SetReadIndex i).1 = { c with read := 0 } := by
      unfold Crate.SetReadIndex
      simp only [hcr]
    rw [heq]
    exact ⟨Nat.zero_le _, h2⟩
  · cases u
    have heq : (c.SetReadIndex i).1 = { c with read := i } := by
      unfold Crate.SetReadIndex
      simp only [hcr]
    rw [heq]
    have hpost := CheckRead_ok_post hcr
    simp only [Nat.zero_add] at hpost
    rw [Nat.mod_eq_of_lt hi] at hpost
    exact ⟨hpost, h2⟩

theorem SetWriteIndex_inv_of_le (c : Crate) (i : Nat)
    (hlen : c.data.length < 2 ^ 62) (hi : i < 2 ^ 62) (hri : c.read ≤ i)
    (hok : (c.SetWriteIndex i).2 = none) : crateInv (c.SetWriteIndex i).1 := by
  rcases hcw : ({ c with write := 0 } : Crate).CheckWrite i with e | c2
  · have hbad : (c.SetWriteIndex i).2 = some e := by
      unfold Crate.SetWriteIndex
      simp only [hcw]
    rw [hok] at hbad
    exact absurd hbad (by simp)
  · have heq : (c.SetWriteIndex i).1 = { c2 with write := i } := by
      unfold Crate.SetWriteIndex
      simp only [hcw]
    rw [heq]
    have hpost := CheckWrite_ok_post
      (show ({ c with write := 0 } : Crate).data.length < 2 ^ 62 by simpa using hlen)
      (show ({ c with write := 0 } : Crate).write + i < 2 ^ 62 by simpa using hi) hcw
    obtain ⟨hp1, hp2, hp3, hp4⟩ := hpost
    simp only [] at hp2 hp3
    constructor
    · show c2.read ≤ i
      omega
    · show i ≤ c2.data.length
      omega

theorem SetWriteIndex_fail_state (c : Crate) (i : Nat) (e : CrateErr)
    (hfail : (c.SetWriteIndex i).2 = some e) :
    (c.SetWriteIndex i).1 = { c with write := 0 } := by
  rcases hcw : ({ c with write := 0 } : Crate).CheckWrite i with e2 | c2
  · have heq : (c.SetWriteIndex i) = ({ c with write := 0 }, some e2) := by
      unfold Crate.SetWriteIndex
      simp only [hcw]
    rw [heq]
  · have hnone : (c.SetWriteIndex i).2 = none := by
      unfold Crate.SetWriteIndex
      simp only [hcw]
    rw [hnone] at hfail
    exact absurd hfail (by simp)

/-- C4 counterexample: on a manual-grow crate holding 2 bytes with one
byte already read (`read = 1`), the failing `SetWriteIndex 5` zeroes the
write cursor before panicking, leaving `read = 1 > write = 0`: the
invariant does not hold after the failed operation. -/
theorem C4_invariant_cex :
    ((((OpenCrate [0, 0] FlagManualExact).DiscardN 1).SetWriteIndex 5).2 =
      some CrateErr.bufferOverflow) ∧
    crateInv ((OpenCrate [0, 0] FlagManualExact).DiscardN 1) ∧
    ¬ crateInv ((((OpenCrate [0, 0] FlagManualExact).DiscardN 1).SetWriteIndex 5).1) :=
  ⟨by decide, by decide, by decide⟩

/-- C4 amended: the cursor invariant `0 ≤ read ≤ write ≤ len(data)` is
preserved by `Grow` (any delta, clamping on shrink), by `DiscardN`
(clamped to the write cursor), and by `SetReadIndex` whether it succeeds
or fails; a *successful* `SetWriteIndex i` preserves it provided
`read ≤ i`; but a *failed* `SetWriteIndex` always leaves `write = 0`
(with `read` untouched), so the invariant is violated after failure
whenever `read > 0` — contrary to the claim. -/
theorem C4_cursor_invariant :
    (∀ (c : Crate) (k : Int), crateInv c → crateInv (c.Grow k)) ∧
    (∀ (c : Crate) (n : Nat), crateInv c → crateInv (c.DiscardN n)) ∧
    (∀ (c : Crate) (i : Nat), i < W64 → crateInv c → crateInv (c.SetReadIndex i).1) ∧
    (∀ (c : Crate) (i : Nat), c.data.length < 2 ^ 62 → i < 2 ^ 62 → c.read ≤ i →
        (c.SetWriteIndex i).2 = none → crateInv (c.SetWriteIndex i).1) ∧
    (∀ (c : Crate) (i : Nat) (e : CrateErr), (c.SetWriteIndex i).2 = some e →
        (c.SetWriteIndex i).1 = { c with write := 0 }) :=
  ⟨Grow_inv, DiscardN_inv, SetReadIndex_inv, SetWriteIndex_inv_of_le,
   SetWriteIndex_fail_state⟩

/-- Witness for C4 at concrete inputs. -/
theorem C4_cursor_invariant_witness :
    crateInv ((OpenCrate [0, 0] FlagDefault).SetReadIndex 1).1 ∧
    crateInv ((OpenCrate [0, 0] FlagDefault).DiscardN 1) :=
  ⟨C4_cursor_invariant.2.2.1 (OpenCrate [0, 0] FlagDefault) 1 (by decide) (by decide),
   C4_cursor_invariant.2.1 (OpenCrate [0, 0] FlagDefault) 1 (by decide)⟩

end LiteCrate

namespace LiteCrate

/-- When a positive grow cannot re-slice within capacity, a double-policy
crate reallocates to exactly `2*len + k`. -/
theorem Grow_alloc_capacity (c : Crate) (k : Nat) (hk : 0 < k)
    (hcap : c.capacity < c.data.length + k) (hd : c.WillDoubleOnAllocate = true) :
    (c.Grow (k : Int)).capacity = 2 * c.data.length + k := by
  unfold Crate.Grow
  rw [if_neg (by exact_mod_cast Nat.pos_iff_ne_zero.mp hk),
    if_neg (by omega : ¬((k : Int) < 0)),
    if_neg (by push_cast; omega)]
  rw [hd]
  simp only [if_true, Int.toNat_natCast]
  ring

/-- An auto+double crate whose allocation is exceeded reallocates to
`len + write + n`, i.e. `2*len + (write + n - len)`. -/
theorem CheckWrite_double_capacity (c : Crate) (n : Nat)
    (hauto : c.WillAutoGrow = true) (hd : c.WillDoubleOnAllocate = true)
    (hlt : c.data.length < c.write + n) (hcap : c.capacity < c.write + n)
    (hsz : c.write + n < 2 ^ 63) :
    ∃ c2, c.CheckWrite n = Except.ok c2 ∧
      c2.capacity = c.data.length + c.write + n := by
  have hg := @CheckWrite_grow_ok c n hauto hlt hsz
  refine ⟨_, hg.1, ?_⟩
  rw [Grow_alloc_capacity c (c.write + n - c.data.length) (by omega) (by omega) hd]
  omega

/-- C5 counterexample: an auto+double crate of length/capacity 2 with the
write cursor at 0, written with 3 bytes, grows to capacity
`2*len + diff = 5`, which is less than the claimed `2*old + n = 7`. -/
theorem C5_growth_cex :
    (NewCrate 2 FlagAutoDouble).CheckWrite 3 =
      Except.ok ⟨[0, 0, 0, 0, 0], 5, 0, 0, 0⟩ ∧
    ¬ 2 * 2 + 3 ≤ 5 :=
  ⟨by decide, by decide⟩

/-- C5 amended: a manual-grow crate fails with BufferOverflow (growing
nothing) when a write exceeds the remaining buffer; an auto+double crate
whose allocation is exceeded grows capacity to exactly
`2*len + (write+n-len) = len + write + n`, which equals `2*old + n` only
when the buffer was full (`write = len = cap`) — the claimed
`≥ 2*old + n` holds in that full-buffer case but not in general. -/
theorem C5_growth_policy :
    (∀ (c : Crate) (n : Nat), c.WillAutoGrow = false →
        c.data.length < c.write + n → c.write + n < W64 →
        c.CheckWrite n = Except.error CrateErr.bufferOverflow) ∧
    (∀ (c : Crate) (n : Nat), c.WillAutoGrow = true → c.WillDoubleOnAllocate = true →
        c.data.length < c.write + n → c.capacity < c.write + n → c.write + n < 2 ^ 63 →
        ∃ c2, c.CheckWrite n = Except.ok c2 ∧
          c2.capacity = c.data.length + c.write + n) ∧
    (∀ (c : Crate) (n : Nat), c.WillAutoGrow = true → c.WillDoubleOnAllocate = true →
        c.write = c.data.length → c.data.length = c.capacity → 0 < n →
        c.write + n < 2 ^ 63 →
        ∃ c2, c.CheckWrite n = Except.ok c2 ∧ c2.capacity = 2 * c.capacity + n) := by
  refine ⟨fun _ n hm h1 h2 => CheckWrite_overflow hm h1 h2,
    fun c n ha hd h1 h2 h3 => CheckWrite_double_capacity c n ha hd h1 h2 h3,
    fun c n ha hd hw hl hn hsz => ?_⟩
  obtain ⟨c2, hok, hcap⟩ := CheckWrite_double_capacity c n ha hd (by omega) (by omega) hsz
  exact ⟨c2, hok, by omega⟩

/-- Witness for C5 at concrete inputs. -/
theorem C5_growth_policy_witness :
    (NewCrate 2 FlagManualExact).CheckWrite 3 =
      Except.error CrateErr.bufferOverflow ∧
    ∃ c2, (OpenCrate [0, 0] FlagAutoDouble).CheckWrite 4 = Except.ok c2 ∧
      c2.capacity = 2 * 2 + 4 :=
  ⟨C5_growth_policy.1 (NewCrate 2 FlagManualExact) 3 (by decide) (by decide) (by decide),
   by
    have h := C5_growth_policy.2.2 (OpenCrate [0, 0] FlagAutoDouble) 4 (by decide) (by decide)
      (by decide) (by decide) (by decide) (by decide)
    simpa using h⟩

end LiteCrate

namespace LiteCrate

/-- C10: `WriteRune` calls itself with unchanged arguments, so no amount
of call-stack fuel produces a result — the Go method never returns; a
rune is written only through `AccessRune` in Write mode, which delegates
to `AccessI32`/`WriteI32` and returns after advancing the write cursor by
exactly 4 bytes. -/
theorem C10_writeRune_nontermination :
    (∀ (fuel : Nat) (c : Crate) (v : Nat), writeRuneFuel fuel c v = none) ∧
    (∀ v : Nat, ∃ c2, (NewCrate 4 FlagDefault).AccessRune (some v) AccessMode.write =
        Except.ok (c2, some v, []) ∧ c2.write = (NewCrate 4 FlagDefault).write + 4) := by
  constructor
  · intro fuel
    induction fuel with
    | zero => intro c v; rfl
    | succ n ih => intro c v; exact ih c v
  · intro v
    have hcw : (NewCrate 4 FlagDefault).CheckWrite 4 = Except.ok (NewCrate 4 FlagDefault) :=
      CheckWrite_ok (by decide) (by decide) (by decide)
    refine ⟨⟨[v % 256, v >>> 8 % 256, v >>> 16 % 256, v >>> 24 % 256], 4, 4, 0, 0⟩, ?_, rfl⟩
    show (do
      let c ← (NewCrate 4 FlagDefault).WriteI32 v
      pure (c, some v, ([] : List Nat))) = _
    unfold Crate.WriteI32 Crate.WriteU32
    rw [hcw, ok_bind]
    rfl

end LiteCrate

namespace LiteCrate

theorem and_two_pow_of_lt {x k : Nat} (h : x < 2 ^ k) : x &&& 2 ^ k = 0 := by
  have hd : x / 2 ^ k % 2 = 0 := by
    have h0 : x / 2 ^ k = 0 := Nat.div_eq_of_lt h
    omega
  have h3 := Nat.and_two_pow x k
  rw [Nat.testBit_to_div_mod, hd] at h3
  simpa using h3

theorem and_two_pow_of_ge {x k : Nat} (h1 : 2 ^ k ≤ x) (h2 : x < 2 ^ (k + 1)) :
    x &&& 2 ^ k = 2 ^ k := by
  have hd : x / 2 ^ k % 2 = 1 := by
    have hlt : x / 2 ^ k < 2 := by
      rw [Nat.div_lt_iff_lt_mul (Nat.pos_pow_of_pos k (by norm_num))]
      rw [pow_succ] at h2
      omega
    have hge : 1 ≤ x / 2 ^ k :=
      (Nat.one_le_div_iff (Nat.pos_pow_of_pos k (by norm_num))).mpr h1
    omega
  have h3 := Nat.and_two_pow x k
  rw [Nat.testBit_to_div_mod, hd] at h3
  simpa using h3

/-- Two's-complement range compression round-trips on bit patterns: on a
native-width pattern `p` of a value in the narrow signed range
(non-negative below `2^k`, or negative, i.e. within `2^k` of `2^w`), the
shrink fits in `k+1` bits and the expand restores `p` exactly. -/
theorem shrink_expand_pat (w k : Nat) (hk : k + 1 < w) (p : Nat) (hp : p < 2 ^ w)
    (hrange : p < 2 ^ k ∨ 2 ^ w - 2 ^ k ≤ p) :
    twosComplimentShrink w p (2 ^ w - 1) (2 ^ (k + 1) - 1) < 2 ^ (k + 1) ∧
    twosComplimentExpand w
      (twosComplimentShrink w p (2 ^ w - 1) (2 ^ (k + 1) - 1))
      (2 ^ k) (2 ^ (k + 1) - 1) (2 ^ w - 1) = p := by
  have hk1 : (2 : Nat) ^ (k + 1) = 2 * 2 ^ k := by rw [pow_succ]; ring
  have hw1 : (2 : Nat) ^ (w - 1) * 2 = 2 ^ w := by
    have he : w - 1 + 1 = w := by omega
    rw [← pow_succ, he]
  have hkw : (2 : Nat) ^ (k + 1) ≤ 2 ^ (w - 1) := Nat.pow_le_pow_right (by norm_num) (by omega)
  have hkpos : (0 : Nat) < 2 ^ k := Nat.pos_pow_of_pos k (by norm_num)
  rcases hrange with hpos | hneg
  · -- non-negative value: fold is the identity
    have hsh : twosComplimentShrink w p (2 ^ w - 1) (2 ^ (k + 1) - 1) = p := by
      unfold twosComplimentShrink
      rw [if_neg (by omega)]
    rw [hsh]
    refine ⟨by omega, ?_⟩
    unfold twosComplimentExpand
    rw [and_two_pow_of_lt hpos, if_neg (by simp; omega)]
  · -- negative value: the fold subtracts 2^w - 2^(k+1)
    have hBM : (2 : Nat) ^ (w - 1) < 2 ^ w := by
      have hBpos : (0 : Nat) < 2 ^ (w - 1) := Nat.pos_pow_of_pos (w - 1) (by norm_num)
      omega
    have hkM : (2 : Nat) ^ k < 2 ^ w := by omega
    have hp1 : 1 ≤ p := by omega
    have hsb : 2 ^ (w - 1) ≤ p := by omega
    have e1 : p ^^^ (2 ^ w - 1) = 2 ^ w - 1 - p := xor_ones hp
    have hsh : twosComplimentShrink w p (2 ^ w - 1) (2 ^ (k + 1) - 1) =
        2 ^ (k + 1) - (2 ^ w - p) := by
      unfold twosComplimentShrink
      rw [if_pos hsb, e1]
      have e2 : (2 ^ w - 1 - p + 1) % 2 ^ w = 2 ^ w - p := by
        have ha : 2 ^ w - 1 - p + 1 = 2 ^ w - p := by omega
        rw [ha]
        exact Nat.mod_eq_of_lt (by omega)
      rw [e2]
      have e3 : (2 ^ w - p) ^^^ (2 ^ (k + 1) - 1) = 2 ^ (k + 1) - 1 - (2 ^ w - p) :=
        xor_ones (by omega)
      rw [e3]
      have ha : 2 ^ (k + 1) - 1 - (2 ^ w - p) + 1 = 2 ^ (k + 1) - (2 ^ w - p) := by omega
      rw [ha]
      exact Nat.mod_eq_of_lt (by omega)
    rw [hsh]
    set m := 2 ^ (k + 1) - (2 ^ w - p) with hm
    have hmk : 2 ^ k ≤ m ∧ m < 2 ^ (k + 1) := by omega
    refine ⟨by omega, ?_⟩
    unfold twosComplimentExpand
    rw [and_two_pow_of_ge hmk.1 hmk.2, if_pos (by simp)]
    by_cases hmin : m = 2 ^ k
    · have hx0 : m ^^^ 2 ^ k = 0 := by
        rw [hmin, Nat.xor_self]
      rw [hx0, if_pos (by simp)]
      rw [xor_ones (by omega : 2 ^ k - 1 < 2 ^ w)]
      omega
    · have hx0 : ¬ (m ^^^ 2 ^ k = 0) := by
        rw [Nat.xor_eq_zero]
        exact hmin
      rw [if_neg (by simpa using hx0)]
      have e4 : m ^^^ (2 ^ (k + 1) - 1) = 2 ^ (k + 1) - 1 - m := xor_ones (by omega)
      rw [e4]
      have e5 : (2 ^ (k + 1) - 1 - m + 1) % 2 ^ w = 2 ^ (k + 1) - m := by
        have ha : 2 ^ (k + 1) - 1 - m + 1 = 2 ^ (k + 1) - m := by omega
        rw [ha]
        exact Nat.mod_eq_of_lt (by omega)
      rw [e5]
      have e6 : (2 ^ (k + 1) - m) ^^^ (2 ^ w - 1) = 2 ^ w - 1 - (2 ^ (k + 1) - m) :=
        xor_ones (by omega)
      rw [e6]
      have ha : 2 ^ w - 1 - (2 ^ (k + 1) - m) + 1 = 2 ^ w - (2 ^ (k + 1) - m) := by omega
      have hval : 2 ^ w - (2 ^ (k + 1) - m) = p := by omega
      rw [ha, hval]
      exact Nat.mod_eq_of_lt hp

end LiteCrate

namespace LiteCrate

theorem toInt_toPat_32 (v : Int) (h1 : -(2 ^ 31) ≤ v) (h2 : v < 2 ^ 31) :
    toInt 32 (toPat 32 v) = v := by
  unfold toPat toInt
  split_ifs with h
  · omega
  · omega

theorem bytesLE3 (m : Nat) (hm : m < 2 ^ 24) :
    (m % 256) ||| (((m >>> 8) % 256) <<< 8) ||| (((m >>> 16) % 256) <<< 16) = m := by
  simp only [Nat.shiftRight_eq_div_pow]
  rw [lor_shift_add (m / 2 ^ 8 % 256) 8 (by omega)]
  rw [lor_shift_add (m / 2 ^ 16 % 256) 16 (by omega)]
  omega

theorem i24_chain (x : Nat) :
    (do
      let c1 ← (NewCrate 3 FlagDefault).WriteI24 x
      c1.ReadI24) =
    Except.ok
      (⟨[twosComplimentShrink 32 x maskI32 maskI24 % 256,
         (twosComplimentShrink 32 x maskI32 maskI24 >>> 8) % 256,
         (twosComplimentShrink 32 x maskI32 maskI24 >>> 16) % 256], 3, 3, 3, FlagDefault⟩,
       twosComplimentExpand 32
         ((twosComplimentShrink 32 x maskI32 maskI24 % 256) |||
          (((twosComplimentShrink 32 x maskI32 maskI24 >>> 8) % 256) <<< 8) |||
          (((twosComplimentShrink 32 x maskI32 maskI24 >>> 16) % 256) <<< 16))
         minI24 maskI24 maskI32) := by
  have hW : (NewCrate 3 FlagDefault).WriteU24 (twosComplimentShrink 32 x maskI32 maskI24) =
      Except.ok (Crate.mk [twosComplimentShrink 32 x maskI32 maskI24 % 256,
        (twosComplimentShrink 32 x maskI32 maskI24 >>> 8) % 256,
        (twosComplimentShrink 32 x maskI32 maskI24 >>> 16) % 256] 3 3 0 FlagDefault) := rfl
  have hcr : (Crate.mk [twosComplimentShrink 32 x maskI32 maskI24 % 256,
      (twosComplimentShrink 32 x maskI32 maskI24 >>> 8) % 256,
      (twosComplimentShrink 32 x maskI32 maskI24 >>> 16) % 256] 3 3 0
      FlagDefault).CheckRead 3 = Except.ok () := by
    apply CheckRead_ok <;> simp [W64]
  have hP : (Crate.mk [twosComplimentShrink 32 x maskI32 maskI24 % 256,
      (twosComplimentShrink 32 x maskI32 maskI24 >>> 8) % 256,
      (twosComplimentShrink 32 x maskI32 maskI24 >>> 16) % 256] 3 3 0
      FlagDefault).PeekU24 = Except.ok
        ((twosComplimentShrink 32 x maskI32 maskI24 % 256) |||
         (((twosComplimentShrink 32 x maskI32 maskI24 >>> 8) % 256) <<< 8) |||
         (((twosComplimentShrink 32 x maskI32 maskI24 >>> 16) % 256) <<< 16)) := by
    unfold Crate.PeekU24
    rw [hcr, ok_bind]
    rfl
  have hR : (Crate.mk [twosComplimentShrink 32 x maskI32 maskI24 % 256,
      (twosComplimentShrink 32 x maskI32 maskI24 >>> 8) % 256,
      (twosComplimentShrink 32 x maskI32 maskI24 >>> 16) % 256] 3 3 0
      FlagDefault).ReadI24 = Except.ok
        (Crate.mk [twosComplimentShrink 32 x maskI32 maskI24 % 256,
          (twosComplimentShrink 32 x maskI32 maskI24 >>> 8) % 256,
          (twosComplimentShrink 32 x maskI32 maskI24 >>> 16) % 256] 3 3 3 FlagDefault,
         twosComplimentExpand 32
           ((twosComplimentShrink 32 x maskI32 maskI24 % 256) |||
            (((twosComplimentShrink 32 x maskI32 maskI24 >>> 8) % 256) <<< 8) |||
            (((twosComplimentShrink 32 x maskI32 maskI24 >>> 16) % 256) <<< 16))
           minI24 maskI24 maskI32) := by
    unfold Crate.ReadI24 Crate.PeekI24
    rw [hP, ok_bind, pure_bind]
    rfl
  unfold Crate.WriteI24
  rw [hW, ok_bind]
  exact hR

end LiteCrate

namespace LiteCrate

theorem roundtripI24 (v : Int) (h1 : -(2 ^ 23) ≤ v) (h2 : v < 2 ^ 23) :
    ∃ c q, (do
      let c1 ← (NewCrate 3 FlagDefault).WriteI24 (toPat 32 v)
      c1.ReadI24) = Except.ok (c, q) ∧ toInt 32 q = v := by
  have hp : toPat 32 v < 2 ^ 32 := by unfold toPat; omega
  have hrange : toPat 32 v < 2 ^ 23 ∨ 2 ^ 32 - 2 ^ 23 ≤ toPat 32 v := by
    unfold toPat; omega
  obtain ⟨hlt, hexp⟩ := shrink_expand_pat 32 23 (by norm_num) (toPat 32 v) hp hrange
  refine ⟨_, _, i24_chain (toPat 32 v), ?_⟩
  have hmask24 : maskI24 = 2 ^ 24 - 1 := by norm_num [maskI24]
  have hmin24 : minI24 = 2 ^ 23 := by norm_num [minI24]
  have hmask32 : maskI32 = 2 ^ 32 - 1 := rfl
  rw [hmask24, hmin24, hmask32, bytesLE3 _ hlt, hexp]
  exact toInt_toPat_32 v (by omega) (by omega)

theorem bytesLE5 (m : Nat) (hm : m < 2 ^ 40) :
    (m % 256) ||| (((m >>> 8) % 256) <<< 8) ||| (((m >>> 16) % 256) <<< 16) |||
      (((m >>> 24) % 256) <<< 24) ||| (((m >>> 32) % 256) <<< 32) = m := by
  simp only [Nat.shiftRight_eq_div_pow]
  rw [lor_shift_add (m / 2 ^ 8 % 256) 8 (by omega)]
  rw [lor_shift_add (m / 2 ^ 16 % 256) 16 (by omega)]
  rw [lor_shift_add (m / 2 ^ 24 % 256) 24 (by omega)]
  rw [lor_shift_add (m / 2 ^ 32 % 256) 32 (by omega)]
  omega

theorem bytesLE6 (m : Nat) (hm : m < 2 ^ 48) :
    (m % 256) ||| (((m >>> 8) % 256) <<< 8) ||| (((m >>> 16) % 256) <<< 16) |||
      (((m >>> 24) % 256) <<< 24) ||| (((m >>> 32) % 256) <<< 32) |||
      (((m >>> 40) % 256) <<< 40) = m := by
  simp only [Nat.shiftRight_eq_div_pow]
  rw [lor_shift_add (m / 2 ^ 8 % 256) 8 (by omega)]
  rw [lor_shift_add (m / 2 ^ 16 % 256) 16 (by omega)]
  rw [lor_shift_add (m / 2 ^ 24 % 256) 24 (by omega)]
  rw [lor_shift_add (m / 2 ^ 32 % 256) 32 (by omega)]
  rw [lor_shift_add (m / 2 ^ 40 % 256) 40 (by omega)]
  omega

theorem bytesLE7 (m : Nat) (hm : m < 2 ^ 56) :
    (m % 256) ||| (((m >>> 8) % 256) <<< 8) ||| (((m >>> 16) % 256) <<< 16) |||
      (((m >>> 24) % 256) <<< 24) ||| (((m >>> 32) % 256) <<< 32) |||
      (((m >>> 40) % 256) <<< 40) ||| (((m >>> 48) % 256) <<< 48) = m := by
  simp only [Nat.shiftRight_eq_div_pow]
  rw [lor_shift_add (m / 2 ^ 8 % 256) 8 (by omega)]
  rw [lor_shift_add (m / 2 ^ 16 % 256) 16 (by omega)]
  rw [lor_shift_add (m / 2 ^ 24 % 256) 24 (by omega)]
  rw [lor_shift_add (m / 2 ^ 32 % 256) 32 (by omega)]
  rw [lor_shift_add (m / 2 ^ 40 % 256) 40 (by omega)]
  rw [lor_shift_add (m / 2 ^ 48 % 256) 48 (by omega)]
  omega

theorem i40_chain (x : Nat) :
    (do
      let c1 ← (NewCrate 5 FlagDefault).WriteI40 x
      c1.ReadI40) =
    Except.ok
      (⟨[twosComplimentShrink 64 x maskI64 maskI40 % 256,
         (twosComplimentShrink 64 x maskI64 maskI40 >>> 8) % 256,
         (twosComplimentShrink 64 x maskI64 maskI40 >>> 16) % 256,
         (twosComplimentShrink 64 x maskI64 maskI40 >>> 24) % 256,
         (twosComplimentShrink 64 x maskI64 maskI40 >>> 32) % 256], 5, 5, 5, FlagDefault⟩,
       twosComplimentExpand 64
         ((twosComplimentShrink 64 x maskI64 maskI40 % 256) |||
          (((twosComplimentShrink 64 x maskI64 maskI40 >>> 8) % 256) <<< 8) |||
          (((twosComplimentShrink 64 x maskI64 maskI40 >>> 16) % 256) <<< 16) |||
          (((twosComplimentShrink 64 x maskI64 maskI40 >>> 24) % 256) <<< 24) |||
          (((twosComplimentShrink 64 x maskI64 maskI40 >>> 32) % 256) <<< 32))
         minI40 maskI40 maskI64) := by
  have hW : (NewCrate 5 FlagDefault).WriteU40 (twosComplimentShrink 64 x maskI64 maskI40) =
      Except.ok (Crate.mk [twosComplimentShrink 64 x maskI64 maskI40 % 256,
        (twosComplimentShrink 64 x maskI64 maskI40 >>> 8) % 256,
        (twosComplimentShrink 64 x maskI64 maskI40 >>> 16) % 256,
        (twosComplimentShrink 64 x maskI64 maskI40 >>> 24) % 256,
        (twosComplimentShrink 64 x maskI64 maskI40 >>> 32) % 256] 5 5 0 FlagDefault) := rfl
  have hcr : (Crate.mk [twosComplimentShrink 64 x maskI64 maskI40 % 256,
        (twosComplimentShrink 64 x maskI64 maskI40 >>> 8) % 256,
        (twosComplimentShrink 64 x maskI64 maskI40 >>> 16) % 256,
        (twosComplimentShrink 64 x maskI64 maskI40 >>> 24) % 256,
        (twosComplimentShrink 64 x maskI64 maskI40 >>> 32) % 256] 5 5 0
      FlagDefault).CheckRead 5 = Except.ok () := by
    apply CheckRead_ok <;> simp [W64]
  have hP : (Crate.mk [twosComplimentShrink 64 x maskI64 maskI40 % 256,
        (twosComplimentShrink 64 x maskI64 maskI40 >>> 8) % 256,
        (twosComplimentShrink 64 x maskI64 maskI40 >>> 16) % 256,
        (twosComplimentShrink 64 x maskI64 maskI40 >>> 24) % 256,
        (twosComplimentShrink 64 x maskI64 maskI40 >>> 32) % 256] 5 5 0
      FlagDefault).PeekU40 = Except.ok
        ((twosComplimentShrink 64 x maskI64 maskI40 % 256) |||
         (((twosComplimentShrink 64 x maskI64 maskI40 >>> 8) % 256) <<< 8) |||
         (((twosComplimentShrink 64 x maskI64 maskI40 >>> 16) % 256) <<< 16) |||
         (((twosComplimentShrink 64 x maskI64 maskI40 >>> 24) % 256) <<< 24) |||
         (((twosComplimentShrink 64 x maskI64 maskI40 >>> 32) % 256) <<< 32)) := by
    unfold Crate.PeekU40
    rw [hcr, ok_bind]
    rfl
  have hR : (Crate.mk [twosComplimentShrink 64 x maskI64 maskI40 % 256,
        (twosComplimentShrink 64 x maskI64 maskI40 >>> 8) % 256,
        (twosComplimentShrink 64 x maskI64 maskI40 >>> 16) % 256,
        (twosComplimentShrink 64 x maskI64 maskI40 >>> 24) % 256,
        (twosComplimentShrink 64 x maskI64 maskI40 >>> 32) % 256] 5 5 0
      FlagDefault).ReadI40 = Except.ok
        (Crate.mk [twosComplimentShrink 64 x maskI64 maskI40 % 256,
          (twosComplimentShrink 64 x maskI64 maskI40 >>> 8) % 256,
          (twosComplimentShrink 64 x maskI64 maskI40 >>> 16) % 256,
          (twosComplimentShrink 64 x maskI64 maskI40 >>> 24) % 256,
          (twosComplimentShrink 64 x maskI64 maskI40 >>> 32) % 256] 5 5 5 FlagDefault,
         twosComplimentExpand 64
           ((twosComplimentShrink 64 x maskI64 maskI40 % 256) |||
            (((twosComplimentShrink 64 x maskI64 maskI40 >>> 8) % 256) <<< 8) |||
            (((twosComplimentShrink 64 x maskI64 maskI40 >>> 16) % 256) <<< 16) |||
            (((twosComplimentShrink 64 x maskI64 maskI40 >>> 24) % 256) <<< 24) |||
            (((twosComplimentShrink 64 x maskI64 maskI40 >>> 32) % 256) <<< 32))
           minI40 maskI40 maskI64) := by
    unfold Crate.ReadI40 Crate.PeekI40
    rw [hP, ok_bind, pure_bind]
    rfl
  unfold Crate.WriteI40
  rw [hW, ok_bind]
  exact hR

theorem roundtripI40 (v : Int) (h1 : -(2 ^ 39) ≤ v) (h2 : v < 2 ^ 39) :
    ∃ c q, (do
      let c1 ← (NewCrate 5 FlagDefault).WriteI40 (toPat 64 v)
      c1.ReadI40) = Except.ok (c, q) ∧ toInt 64 q = v := by
  have hp : toPat 64 v < 2 ^ 64 := by unfold toPat; omega
  have hrange : toPat 64 v < 2 ^ 39 ∨ 2 ^ 64 - 2 ^ 39 ≤ toPat 64 v := by
    unfold toPat; omega
  obtain ⟨hlt, hexp⟩ := shrink_expand_pat 64 39 (by norm_num) (toPat 64 v) hp hrange
  refine ⟨_, _, i40_chain (toPat 64 v), ?_⟩
  have hmask40 : maskI40 = 2 ^ 40 - 1 := by norm_num [maskI40]
  have hmin40 : minI40 = 2 ^ 39 := by norm_num [minI40]
  have hmask64 : maskI64 = 2 ^ 64 - 1 := rfl
  rw [hmask40, hmin40, hmask64, bytesLE5 _ hlt, hexp]
  exact toInt_toPat_64 v (by omega) (by omega)

theorem i48_chain (x : Nat) :
    (do
      let c1 ← (NewCrate 6 FlagDefault).WriteI48 x
      c1.ReadI48) =
    Except.ok
      (⟨[twosComplimentShrink 64 x maskI64 maskI48 % 256,
         (twosComplimentShrink 64 x maskI64 maskI48 >>> 8) % 256,
         (twosComplimentShrink 64 x maskI64 maskI48 >>> 16) % 256,
         (twosComplimentShrink 64 x maskI64 maskI48 >>> 24) % 256,
         (twosComplimentShrink 64 x maskI64 maskI48 >>> 32) % 256,
         (twosComplimentShrink 64 x maskI64 maskI48 >>> 40) % 256], 6, 6, 6, FlagDefault⟩,
       twosComplimentExpand 64
         ((twosComplimentShrink 64 x maskI64 maskI48 % 256) |||
          (((twosComplimentShrink 64 x maskI64 maskI48 >>> 8) % 256) <<< 8) |||
          (((twosComplimentShrink 64 x maskI64 maskI48 >>> 16) % 256) <<< 16) |||
          (((twosComplimentShrink 64 x maskI64 maskI48 >>> 24) % 256) <<< 24) |||
          (((twosComplimentShrink 64 x maskI64 maskI48 >>> 32) % 256) <<< 32) |||
          (((twosComplimentShrink 64 x maskI64 maskI48 >>> 40) % 256) <<< 40))
         minI48 maskI48 maskI64) := by
  have hW : (NewCrate 6 FlagDefault).WriteU48 (twosComplimentShrink 64 x maskI64 maskI48) =
      Except.ok (Crate.mk [twosComplimentShrink 64 x maskI64 maskI48 % 256,
        (twosComplimentShrink 64 x maskI64 maskI48 >>> 8) % 256,
        (twosComplimentShrink 64 x maskI64 maskI48 >>> 16) % 256,
        (twosComplimentShrink 64 x maskI64 maskI48 >>> 24) % 256,
        (twosComplimentShrink 64 x maskI64 maskI48 >>> 32) % 256,
        (twosComplimentShrink 64 x maskI64 maskI48 >>> 40) % 256] 6 6 0 FlagDefault) := rfl
  have hcr : (Crate.mk [twosComplimentShrink 64 x maskI64 maskI48 % 256,
        (twosComplimentShrink 64 x maskI64 maskI48 >>> 8) % 256,
        (twosComplimentShrink 64 x maskI64 maskI48 >>> 16) % 256,
        (twosComplimentShrink 64 x maskI64 maskI48 >>> 24) % 256,
        (twosComplimentShrink 64 x maskI64 maskI48 >>> 32) % 256,
        (twosComplimentShrink 64 x maskI64 maskI48 >>> 40) % 256] 6 6 0
      FlagDefault).CheckRead 6 = Except.ok () := by
    apply CheckRead_ok <;> simp [W64]
  have hP : (Crate.mk [twosComplimentShrink 64 x maskI64 maskI48 % 256,
        (twosComplimentShrink 64 x maskI64 maskI48 >>> 8) % 256,
        (twosComplimentShrink 64 x maskI64 maskI48 >>> 16) % 256,
        (twosComplimentShrink 64 x maskI64 maskI48 >>> 24) % 256,
        (twosComplimentShrink 64 x maskI64 maskI48 >>> 32) % 256,
        (twosComplimentShrink 64 x maskI64 maskI48 >>> 40) % 256] 6 6 0
      FlagDefault).PeekU48 = Except.ok
        ((twosComplimentShrink 64 x maskI64 maskI48 % 256) |||
         (((twosComplimentShrink 64 x maskI64 maskI48 >>> 8) % 256) <<< 8) |||
         (((twosComplimentShrink 64 x maskI64 maskI48 >>> 16) % 256) <<< 16) |||
         (((twosComplimentShrink 64 x maskI64 maskI48 >>> 24) % 256) <<< 24) |||
         (((twosComplimentShrink 64 x maskI64 maskI48 >>> 32) % 256) <<< 32) |||
         (((twosComplimentShrink 64 x maskI64 maskI48 >>> 40) % 256) <<< 40)) := by
    unfold Crate.PeekU48
    rw [hcr, ok_bind]
    rfl
  have hR : (Crate.mk [twosComplimentShrink 64 x maskI64 maskI48 % 256,
        (twosComplimentShrink 64 x maskI64 maskI48 >>> 8) % 256,
        (twosComplimentShrink 64 x maskI64 maskI48 >>> 16) % 256,
        (twosComplimentShrink 64 x maskI64 maskI48 >>> 24) % 256,
        (twosComplimentShrink 64 x maskI64 maskI48 >>> 32) % 256,
        (twosComplimentShrink 64 x maskI64 maskI48 >>> 40) % 256] 6 6 0
      FlagDefault).ReadI48 = Except.ok
        (Crate.mk [twosComplimentShrink 64 x maskI64 maskI48 % 256,
          (twosComplimentShrink 64 x maskI64 maskI48 >>> 8) % 256,
          (twosComplimentShrink 64 x maskI64 maskI48 >>> 16) % 256,
          (twosComplimentShrink 64 x maskI64 maskI48 >>> 24) % 256,
          (twosComplimentShrink 64 x maskI64 maskI48 >>> 32) % 256,
          (twosComplimentShrink 64 x maskI64 maskI48 >>> 40) % 256] 6 6 6 FlagDefault,
         twosComplimentExpand 64
           ((twosComplimentShrink 64 x maskI64 maskI48 % 256) |||
            (((twosComplimentShrink 64 x maskI64 maskI48 >>> 8) % 256) <<< 8) |||
            (((twosComplimentShrink 64 x maskI64 maskI48 >>> 16) % 256) <<< 16) |||
            (((twosComplimentShrink 64 x maskI64 maskI48 >>> 24) % 256) <<< 24) |||
            (((twosComplimentShrink 64 x maskI64 maskI48 >>> 32) % 256) <<< 32) |||
            (((twosComplimentShrink 64 x maskI64 maskI48 >>> 40) % 256) <<< 40))
           minI48 maskI48 maskI64) := by
    unfold Crate.ReadI48 Crate.PeekI48
    rw [hP, ok_bind, pure_bind]
    rfl
  unfold Crate.WriteI48
  rw [hW, ok_bind]
  exact hR

theorem roundtripI48 (v : Int) (h1 : -(2 ^ 47) ≤ v) (h2 : v < 2 ^ 47) :
    ∃ c q, (do
      let c1 ← (NewCrate 6 FlagDefault).WriteI48 (toPat 64 v)
      c1.ReadI48) = Except.ok (c, q) ∧ toInt 64 q = v := by
  have hp : toPat 64 v < 2 ^ 64 := by unfold toPat; omega
  have hrange : toPat 64 v < 2 ^ 47 ∨ 2 ^ 64 - 2 ^ 47 ≤ toPat 64 v := by
    unfold toPat; omega
  obtain ⟨hlt, hexp⟩ := shrink_expand_pat 64 47 (by norm_num) (toPat 64 v) hp hrange
  refine ⟨_, _, i48_chain (toPat 64 v), ?_⟩
  have hmask48 : maskI48 = 2 ^ 48 - 1 := by norm_num [maskI48]
  have hmin48 : minI48 = 2 ^ 47 := by norm_num [minI48]
  have hmask64 : maskI64 = 2 ^ 64 - 1 := rfl
  rw [hmask48, hmin48, hmask64, bytesLE6 _ hlt, hexp]
  exact toInt_toPat_64 v (by omega) (by omega)

theorem i56_chain (x : Nat) :
    (do
      let c1 ← (NewCrate 7 FlagDefault).WriteI56 x
      c1.ReadI56) =
    Except.ok
      (⟨[twosComplimentShrink 64 x maskI64 maskI56 % 256,
         (twosComplimentShrink 64 x maskI64 maskI56 >>> 8) % 256,
         (twosComplimentShrink 64 x maskI64 maskI56 >>> 16) % 256,
         (twosComplimentShrink 64 x maskI64 maskI56 >>> 24) % 256,
         (twosComplimentShrink 64 x maskI64 maskI56 >>> 32) % 256,
         (twosComplimentShrink 64 x maskI64 maskI56 >>> 40) % 256,
         (twosComplimentShrink 64 x maskI64 maskI56 >>> 48) % 256], 7, 7, 7, FlagDefault⟩,
       twosComplimentExpand 64
         ((twosComplimentShrink 64 x maskI64 maskI56 % 256) |||
          (((twosComplimentShrink 64 x maskI64 maskI56 >>> 8) % 256) <<< 8) |||
          (((twosComplimentShrink 64 x maskI64 maskI56 >>> 16) % 256) <<< 16) |||
          (((twosComplimentShrink 64 x maskI64 maskI56 >>> 24) % 256) <<< 24) |||
          (((twosComplimentShrink 64 x maskI64 maskI56 >>> 32) % 256) <<< 32) |||
          (((twosComplimentShrink 64 x maskI64 maskI56 >>> 40) % 256) <<< 40) |||
          (((twosComplimentShrink 64 x maskI64 maskI56 >>> 48) % 256) <<< 48))
         minI56 maskI56 maskI64) := by
  have hW : (NewCrate 7 FlagDefault).WriteU56 (twosComplimentShrink 64 x maskI64 maskI56) =
      Except.ok (Crate.mk [twosComplimentShrink 64 x maskI64 maskI56 % 256,
        (twosComplimentShrink 64 x maskI64 maskI56 >>> 8) % 256,
        (twosComplimentShrink 64 x maskI64 maskI56 >>> 16) % 256,
        (twosComplimentShrink 64 x maskI64 maskI56 >>> 24) % 256,
        (twosComplimentShrink 64 x maskI64 maskI56 >>> 32) % 256,
        (twosComplimentShrink 64 x maskI64 maskI56 >>> 40) % 256,
        (twosComplimentShrink 64 x maskI64 maskI56 >>> 48) % 256] 7 7 0 FlagDefault) := rfl
  have hcr : (Crate.mk [twosComplimentShrink 64 x maskI64 maskI56 % 256,
        (twosComplimentShrink 64 x maskI64 maskI56 >>> 8) % 256,
        (twosComplimentShrink 64 x maskI64 maskI56 >>> 16) % 256,
        (twosComplimentShrink 64 x maskI64 maskI56 >>> 24) % 256,
        (twosComplimentShrink 64 x maskI64 maskI56 >>> 32) % 256,
        (twosComplimentShrink 64 x maskI64 maskI56 >>> 40) % 256,
        (twosComplimentShrink 64 x maskI64 maskI56 >>> 48) % 256] 7 7 0
      FlagDefault).CheckRead 7 = Except.ok () := by
    apply CheckRead_ok <;> simp [W64]
  have hP : (Crate.mk [twosComplimentShrink 64 x maskI64 maskI56 % 256,
        (twosComplimentShrink 64 x maskI64 maskI56 >>> 8) % 256,
        (twosComplimentShrink 64 x maskI64 maskI56 >>> 16) % 256,
        (twosComplimentShrink 64 x maskI64 maskI56 >>> 24) % 256,
        (twosComplimentShrink 64 x maskI64 maskI56 >>> 32) % 256,
        (twosComplimentShrink 64 x maskI64 maskI56 >>> 40) % 256,
        (twosComplimentShrink 64 x maskI64 maskI56 >>> 48) % 256] 7 7 0
      FlagDefault).PeekU56 = Except.ok
        ((twosComplimentShrink 64 x maskI64 maskI56 % 256) |||
         (((twosComplimentShrink 64 x maskI64 maskI56 >>> 8) % 256) <<< 8) |||
         (((twosComplimentShrink 64 x maskI64 maskI56 >>> 16) % 256) <<< 16) |||
         (((twosComplimentShrink 64 x maskI64 maskI56 >>> 24) % 256) <<< 24) |||
         (((twosComplimentShrink 64 x maskI64 maskI56 >>> 32) % 256) <<< 32) |||
         (((twosComplimentShrink 64 x maskI64 maskI56 >>> 40) % 256) <<< 40) |||
         (((twosComplimentShrink 64 x maskI64 maskI56 >>> 48) % 256) <<< 48)) := by
    unfold Crate.PeekU56
    rw [hcr, ok_bind]
    rfl
  have hR : (Crate.mk [twosComplimentShrink 64 x maskI64 maskI56 % 256,
        (twosComplimentShrink 64 x maskI64 maskI56 >>> 8) % 256,
        (twosComplimentShrink 64 x maskI64 maskI56 >>> 16) % 256,
        (twosComplimentShrink 64 x maskI64 maskI56 >>> 24) % 256,
        (twosComplimentShrink 64 x maskI64 maskI56 >>> 32) % 256,
        (twosComplimentShrink 64 x maskI64 maskI56 >>> 40) % 256,
        (twosComplimentShrink 64 x maskI64 maskI56 >>> 48) % 256] 7 7 0
      FlagDefault).ReadI56 = Except.ok
        (Crate.mk [twosComplimentShrink 64 x maskI64 maskI56 % 256,
          (twosComplimentShrink 64 x maskI64 maskI56 >>> 8) % 256,
          (twosComplimentShrink 64 x maskI64 maskI56 >>> 16) % 256,
          (twosComplimentShrink 64 x maskI64 maskI56 >>> 24) % 256,
          (twosComplimentShrink 64 x maskI64 maskI56 >>> 32) % 256,
          (twosComplimentShrink 64 x maskI64 maskI56 >>> 40) % 256,
          (twosComplimentShrink 64 x maskI64 maskI56 >>> 48) % 256] 7 7 7 FlagDefault,
         twosComplimentExpand 64
           ((twosComplimentShrink 64 x maskI64 maskI56 % 256) |||
            (((twosComplimentShrink 64 x maskI64 maskI56 >>> 8) % 256) <<< 8) |||
            (((twosComplimentShrink 64 x maskI64 maskI56 >>> 16) % 256) <<< 16) |||
            (((twosComplimentShrink 64 x maskI64 maskI56 >>> 24) % 256) <<< 24) |||
            (((twosComplimentShrink 64 x maskI64 maskI56 >>> 32) % 256) <<< 32) |||
            (((twosComplimentShrink 64 x maskI64 maskI56 >>> 40) % 256) <<< 40) |||
            (((twosComplimentShrink 64 x maskI64 maskI56 >>> 48) % 256) <<< 48))
           minI56 maskI56 maskI64) := by
    unfold Crate.ReadI56 Crate.PeekI56
    rw [hP, ok_bind, pure_bind]
    rfl
  unfold Crate.WriteI56
  rw [hW, ok_bind]
  exact hR

theorem roundtripI56 (v : Int) (h1 : -(2 ^ 55) ≤ v) (h2 : v < 2 ^ 55) :
    ∃ c q, (do
      let c1 ← (NewCrate 7 FlagDefault).WriteI56 (toPat 64 v)
      c1.ReadI56) = Except.ok (c, q) ∧ toInt 64 q = v := by
  have hp : toPat 64 v < 2 ^ 64 := by unfold toPat; omega
  have hrange : toPat 64 v < 2 ^ 55 ∨ 2 ^ 64 - 2 ^ 55 ≤ toPat 64 v := by
    unfold toPat; omega
  obtain ⟨hlt, hexp⟩ := shrink_expand_pat 64 55 (by norm_num) (toPat 64 v) hp hrange
  refine ⟨_, _, i56_chain (toPat 64 v), ?_⟩
  have hmask56 : maskI56 = 2 ^ 56 - 1 := by norm_num [maskI56]
  have hmin56 : minI56 = 2 ^ 55 := by norm_num [minI56]
  have hmask64 : maskI64 = 2 ^ 64 - 1 := rfl
  rw [hmask56, hmin56, hmask64, bytesLE7 _ hlt, hexp]
  exact toInt_toPat_64 v (by omega) (by omega)

end LiteCrate

namespace LiteCrate

/-- C7: for every int32 in the 24-bit signed range and every int64 in the
40-, 48- and 56-bit signed ranges, writing the value with
`WriteI24`/`WriteI40`/`WriteI48`/`WriteI56` (which folds negative values
into the narrow width via `twosComplimentShrink`) and reading it back with
`ReadI24`/`ReadI40`/`ReadI48`/`ReadI56` (which sign-extends via
`twosComplimentExpand`, special-casing the most negative narrow value)
yields a value equal to the original. -/
theorem C7_narrow_signed_roundtrip :
    (∀ v : Int, -(2 ^ 23) ≤ v → v < 2 ^ 23 →
      ∃ c q, (do
        let c1 ← (NewCrate 3 FlagDefault).WriteI24 (toPat 32 v)
        c1.ReadI24) = Except.ok (c, q) ∧ toInt 32 q = v) ∧
    (∀ v : Int, -(2 ^ 39) ≤ v → v < 2 ^ 39 →
      ∃ c q, (do
        let c1 ← (NewCrate 5 FlagDefault).WriteI40 (toPat 64 v)
        c1.ReadI40) = Except.ok (c, q) ∧ toInt 64 q = v) ∧
    (∀ v : Int, -(2 ^ 47) ≤ v → v < 2 ^ 47 →
      ∃ c q, (do
        let c1 ← (NewCrate 6 FlagDefault).WriteI48 (toPat 64 v)
        c1.ReadI48) = Except.ok (c, q) ∧ toInt 64 q = v) ∧
    (∀ v : Int, -(2 ^ 55) ≤ v → v < 2 ^ 55 →
      ∃ c q, (do
        let c1 ← (NewCrate 7 FlagDefault).WriteI56 (toPat 64 v)
        c1.ReadI56) = Except.ok (c, q) ∧ toInt 64 q = v) :=
  ⟨roundtripI24, roundtripI40, roundtripI48, roundtripI56⟩

/-- C7 witness: the round-trip at the concrete values `-2`, `-(2^39)`
(most negative 40-bit value), `2^47 - 1` and `-1`. -/
theorem C7_narrow_signed_roundtrip_witness :
    (∃ c q, (do
        let c1 ← (NewCrate 3 FlagDefault).WriteI24 (toPat 32 (-2))
        c1.ReadI24) = Except.ok (c, q) ∧ toInt 32 q = -2) ∧
    (∃ c q, (do
        let c1 ← (NewCrate 5 FlagDefault).WriteI40 (toPat 64 (-(2 ^ 39)))
        c1.ReadI40) = Except.ok (c, q) ∧ toInt 64 q = -(2 ^ 39)) ∧
    (∃ c q, (do
        let c1 ← (NewCrate 6 FlagDefault).WriteI48 (toPat 64 (2 ^ 47 - 1))
        c1.ReadI48) = Except.ok (c, q) ∧ toInt 64 q = 2 ^ 47 - 1) ∧
    (∃ c q, (do
        let c1 ← (NewCrate 7 FlagDefault).WriteI56 (toPat 64 (-1))
        c1.ReadI56) = Except.ok (c, q) ∧ toInt 64 q = -1) :=
  ⟨C7_narrow_signed_roundtrip.1 (-2) (by norm_num) (by norm_num),
   C7_narrow_signed_roundtrip.2.1 (-(2 ^ 39)) (by norm_num) (by norm_num),
   C7_narrow_signed_roundtrip.2.2.1 (2 ^ 47 - 1) (by norm_num) (by norm_num),
   C7_narrow_signed_roundtrip.2.2.2 (-1) (by norm_num) (by norm_num)⟩

end LiteCrate

namespace LiteCrate

theorem write_counter_6 :
    (Crate.mk [39] 1 1 0 FlagDefault).WriteUVarint 6 =
      Except.ok (Crate.mk [39, 6, 0] 3 2 0 FlagDefault, 1) := by
  unfold Crate.WriteUVarint
  rw [writeUVarintLoop, dif_pos (by norm_num)]
  have hcw : (Crate.mk [39] 1 1 0 FlagDefault).CheckWrite 1 =
      Except.ok (Crate.mk [39, 0, 0] 3 1 0 FlagDefault) := by decide
  rw [hcw, ok_bind]
  show writeUVarintLoop (Crate.mk [39, 6, 0] 3 2 0 FlagDefault) 0 1 = _
  rw [writeUVarintLoop, dif_neg (by norm_num)]
  rfl

theorem read_counter_6 :
    (Crate.mk ([39, 6, 68, 101, 114, 101, 107, 254, 255, 255, 255, 255, 255, 255, 255]
        ++ List.replicate 10 0) 25 15 1 FlagDefault).ReadUVarint =
      Except.ok
        (Crate.mk ([39, 6, 68, 101, 114, 101, 107, 254, 255, 255, 255, 255, 255, 255, 255]
          ++ List.replicate 10 0) 25 15 2 FlagDefault, 6, 1) := by
  unfold Crate.ReadUVarint
  rw [readUVarintLoop_step _ _ _ (by norm_num) (by norm_num) (by norm_num)
    (by norm_num [W64])]
  show readUVarintLoop
    (Crate.mk ([39, 6, 68, 101, 114, 101, 107, 254, 255, 255, 255, 255, 255, 255, 255]
      ++ List.replicate 10 0) 25 15 2 FlagDefault) 6 1 false = _
  rw [readUVarintLoop, if_neg (by simp)]
  rfl

end LiteCrate

namespace LiteCrate

theorem write_derek :
    (Crate.mk [39] 1 1 0 FlagDefault).WriteStringWithCounter [68, 101, 114, 101, 107] =
      Except.ok (Crate.mk [39, 6, 68, 101, 114, 101, 107, 0, 0, 0] 10 7 0 FlagDefault) := by
  show (do
    let (c, _) ← (Crate.mk [39] 1 1 0 FlagDefault).WriteUVarint 6
    c.WriteString [68, 101, 114, 101, 107]) = _
  rw [write_counter_6, ok_bind]
  decide

theorem read_derek :
    (Crate.mk ([39, 6, 68, 101, 114, 101, 107, 254, 255, 255, 255, 255, 255, 255, 255]
        ++ List.replicate 10 0) 25 15 1 FlagDefault).ReadStringWithCounter =
      Except.ok
        (Crate.mk ([39, 6, 68, 101, 114, 101, 107, 254, 255, 255, 255, 255, 255, 255, 255]
          ++ List.replicate 10 0) 25 15 7 FlagDefault, [68, 101, 114, 101, 107]) := by
  unfold Crate.ReadStringWithCounter Crate.ReadLengthOrNil Crate.PeekLengthOrNil
    Crate.PeekUVarint
  rw [read_counter_6]
  simp only [ok_bind, pure_bind, pure_eq_ok]
  norm_num
  decide
end LiteCrate

namespace LiteCrate

/-- C9: writing `uint8(39)`, the length-counted string `"Derek"` and
`int64(-2)` into an empty auto-grow crate writes exactly `1 + (1+5) + 8 =
15` bytes; reading the three values back in order yields `(39, "Derek",
-2)` and leaves the read cursor at `15`. -/
theorem C9_scenario :
    ∃ c1 c2 c3 c4 c5 c6 : Crate, ∃ q : Nat,
      (NewCrate 0 FlagDefault).WriteU8 39 = Except.ok c1 ∧
      c1.WriteStringWithCounter [68, 101, 114, 101, 107] = Except.ok c2 ∧
      c2.WriteI64 (toPat 64 (-2)) = Except.ok c3 ∧
      c3.write = 15 ∧
      c3.ReadU8 = Except.ok (c4, 39) ∧
      c4.ReadStringWithCounter = Except.ok (c5, [68, 101, 114, 101, 107]) ∧
      c5.ReadI64 = Except.ok (c6, q) ∧
      toInt 64 q = -2 ∧
      c6.read = 15 := by
  refine ⟨Crate.mk [39] 1 1 0 FlagDefault,
    Crate.mk [39, 6, 68, 101, 114, 101, 107, 0, 0, 0] 10 7 0 FlagDefault,
    Crate.mk ([39, 6, 68, 101, 114, 101, 107, 254, 255, 255, 255, 255, 255, 255, 255]
      ++ List.replicate 10 0) 25 15 0 FlagDefault,
    Crate.mk ([39, 6, 68, 101, 114, 101, 107, 254, 255, 255, 255, 255, 255, 255, 255]
      ++ List.replicate 10 0) 25 15 1 FlagDefault,
    Crate.mk ([39, 6, 68, 101, 114, 101, 107, 254, 255, 255, 255, 255, 255, 255, 255]
      ++ List.replicate 10 0) 25 15 7 FlagDefault,
    Crate.mk ([39, 6, 68, 101, 114, 101, 107, 254, 255, 255, 255, 255, 255, 255, 255]
      ++ List.replicate 10 0) 25 15 15 FlagDefault,
    2 ^ 64 - 2,
    by decide, write_derek, by decide, rfl, by decide, read_derek, by decide,
    by decide, rfl⟩

end LiteCrate

namespace LiteCrate

/-- `findUVarintBytesLoop` run over a well-formed uvarint encoding counts
exactly its bytes: starting at index `bw` in data whose tail is the
encoding continued from state `(val, bw)`, it returns `bw` plus the number
of remaining encoded bytes. -/
theorem find_loop_spec (d : List Nat) (val bw : Nat) (rest : List Nat)
    (hguard : val > 0 ∨ bw = 0) (hbw : bw ≤ 9) (hval : val < 2 ^ (7 * (9 - bw)))
    (hdata : d.drop bw = uvarintBytes val bw ++ rest) :
    findUVarintBytesLoop d bw true = Except.ok (bw + (uvarintBytes val bw).length) := by
  have hbw8 : bw < 9 := by
    rcases hguard with h | h
    · by_contra hc
      have h9 : bw = 9 := by omega
      subst h9
      simp at hval
      omega
    · omega
  have hcons : uvarintBytes val bw =
      ((val % 256) &&& countMasks.getD bw 0 |||
        (if val > countMask ∧ bw < 8 then 128 else 0)) ::
        uvarintBytes (val >>> countShift) (bw + 1) := by
    rw [uvarintBytes, if_pos hguard]
  have hget : d.get? bw = some ((val % 256) &&& countMasks.getD bw 0 |||
      (if val > countMask ∧ bw < 8 then 128 else 0)) := by
    have h0 : (d.drop bw).get? 0 = d.get? (bw + 0) := by
      rw [List.get?_eq_getElem?, List.get?_eq_getElem?, List.getElem?_drop]
    rw [Nat.add_zero] at h0
    rw [← h0, hdata, hcons]
    rfl
  rw [findUVarintBytesLoop, if_pos ⟨rfl, hbw8⟩, hget]
  by_cases hbig : val > countMask ∧ bw < 8
  · -- continuation byte: recurse
    have hmask : countMasks.getD bw 0 = 127 := countMasks_getD_lt8 hbig.2
    have hb : ((val % 256) &&& countMasks.getD bw 0 |||
        (if val > countMask ∧ bw < 8 then 128 else 0)) &&& continueMask = 128 := by
      rw [hmask, if_pos hbig, and_127_eq_mod]
      rw [lor_128_eq_add (by omega)]
      exact and_128_of_ge (by omega) (by omega)
    have hcont : (((val % 256) &&& countMasks.getD bw 0 |||
        (if val > countMask ∧ bw < 8 then 128 else 0)) &&& continueMask > 0) = True := by
      rw [hb]
      simp
    have hrec := find_loop_spec d (val >>> countShift) (bw + 1) rest
      (Or.inl (by
        simp only [countShift, Nat.shiftRight_eq_div_pow]
        have : countMask = 127 := rfl
        omega))
      (by omega) (shiftRight7_bound hbw8 hval)
      (by
        have hdd : d.drop (bw + 1) = (d.drop bw).drop 1 := by
          rw [List.drop_drop]
        rw [hdd, hdata, hcons]
        rfl)
    simp only [hcont, decide_True]
    rw [hrec, hcons]
    simp only [List.length_cons]
    exact congrArg Except.ok (by omega)
  · -- final byte: continuation bit clear, loop exits on the next entry
    have hval127 : val ≤ 127 := by
      by_cases h8 : bw < 8
      · have : ¬ val > countMask := fun hc => hbig ⟨hc, h8⟩
        have hcm : countMask = 127 := rfl
        omega
      · have h88 : bw = 8 := by omega
        subst h88
        norm_num at hval
        omega
    have hb : ((val % 256) &&& countMasks.getD bw 0 |||
        (if val > countMask ∧ bw < 8 then 128 else 0)) &&& continueMask = 0 := by
      rw [if_neg hbig]
      have hmod : val % 256 = val := Nat.mod_eq_of_lt (by omega)
      by_cases h8 : bw < 8
      · rw [countMasks_getD_lt8 h8, hmod, and_127_eq_mod]
        simp only [Nat.or_zero]
        exact and_128_of_lt (by omega)
      · have h88 : bw = 8 := by omega
        subst h88
        have hm8 : countMasks.getD 8 0 = 255 := rfl
        rw [hm8, hmod, and_255_eq_mod]
        simp only [Nat.or_zero]
        exact and_128_of_lt (by omega)
    have hcont : (((val % 256) &&& countMasks.getD bw 0 |||
        (if val > countMask ∧ bw < 8 then 128 else 0)) &&& continueMask > 0) = False := by
      rw [hb]
      simp
    simp only [hcont, decide_False]
    rw [findUVarintBytesLoop, if_neg (by simp)]
    have htail : uvarintBytes (val >>> countShift) (bw + 1) = [] := by
      apply uvarintBytes_nil
      simp only [countShift, Nat.shiftRight_eq_div_pow]
      omega
    rw [hcons, htail]
    rfl
termination_by val + (1 - bw)
decreasing_by
  simp only [countShift, Nat.shiftRight_eq_div_pow]
  have : countMask = 127 := rfl
  omega

/-- `findUVarintBytesFromData` over data beginning with a complete uvarint
encoding returns exactly the encoded length. -/
theorem find_from_data_spec (val : Nat) (rest : List Nat) (hval : val < 2 ^ 63) :
    findUVarintBytesFromData (uvarintBytes val 0 ++ rest) =
      Except.ok (uvarintBytes val 0).length := by
  unfold findUVarintBytesFromData
  have hpos : 0 < (uvarintBytes val 0 ++ rest).length := by
    simp only [List.length_append]
    have := uvarintBytes_length_pos (Or.inr rfl : val > 0 ∨ 0 = 0)
    omega
  rw [if_neg (by omega)]
  have h := find_loop_spec (uvarintBytes val 0 ++ rest) val 0 rest (Or.inr rfl)
    (by omega) (by omega : val < 2 ^ (7 * (9 - 0))) (by rw [List.drop_zero])
  simpa using h

end LiteCrate

namespace LiteCrate

/-- Writing a uvarint on a fresh crate, then slicing and discarding it at
the start: the slice is exactly the encoded bytes (so its length is the
write-cursor delta) and the discard advances the read cursor by the same
count. -/
theorem uvarint_slice_discard (val : Nat) (hval : val < 2 ^ 63) :
    ∃ c' n s c'',
      (NewCrate 10 FlagDefault).WriteUVarint val = Except.ok (c', n) ∧
      c'.write = n ∧ c'.read = 0 ∧
      c'.SliceUVarint = Except.ok s ∧ s.length = n ∧
      c'.DiscardUVarint = Except.ok (c'', n) ∧ c''.read = n := by
  have hlen9 : (uvarintBytes val 0).length ≤ 9 := by
    simpa using uvarintBytes_length_le val 0 (by omega)
      (by omega : val < 2 ^ (7 * (9 - 0)))
  have h10 : (NewCrate 10 FlagDefault).data.length = 10 := by simp [NewCrate]
  have hw := WriteUVarint_spec (NewCrate 10 FlagDefault) val hval
    (by rw [h10]; simp [NewCrate]; omega) (by rw [h10]; norm_num [W64])
  set n := (uvarintBytes val 0).length with hn
  have h9 : n ≤ 9 := hlen9
  have hstore : storeBytes (NewCrate 10 FlagDefault).data (NewCrate 10 FlagDefault).write
      (uvarintBytes val 0) =
      uvarintBytes val 0 ++ (List.replicate 10 0).drop n := by
    rw [show (NewCrate 10 FlagDefault).write = 0 from rfl,
      show (NewCrate 10 FlagDefault).data = List.replicate 10 0 from rfl]
    rw [storeBytes_spec _ _ _ (by simp; omega)]
    simp
  rw [hstore] at hw
  have hw2 : (NewCrate 10 FlagDefault).WriteUVarint val =
      Except.ok (Crate.mk (uvarintBytes val 0 ++ (List.replicate 10 0).drop n)
        10 n 0 FlagDefault, n) := by
    rw [hw]
    simp [NewCrate]
  set D := uvarintBytes val 0 ++ (List.replicate 10 0).drop n with hD
  have hDlen : D.length = 10 := by
    rw [hD]
    simp only [List.length_append, List.length_drop, List.length_replicate, ← hn]
    omega
  have hnpos : 0 < n := uvarintBytes_length_pos (Or.inr rfl)
  have hfind : findUVarintBytesFromData ((Crate.mk D 10 n 0 FlagDefault).data.drop
      (Crate.mk D 10 n 0 FlagDefault).read) = Except.ok n := by
    show findUVarintBytesFromData (D.drop 0) = Except.ok n
    rw [List.drop_zero, hD, hn]
    exact find_from_data_spec val _ hval
  have hcr : (Crate.mk D 10 n 0 FlagDefault).CheckRead n = Except.ok () := by
    apply CheckRead_ok
    · show 0 + n ≤ n
      omega
    · show n ≤ D.length
      rw [hDlen]
      omega
    · show D.length < W64
      rw [hDlen]
      norm_num [W64]
    · show 0 < 0 + n
      omega
  have hslice : (Crate.mk D 10 n 0 FlagDefault).SliceUVarint =
      Except.ok (uvarintBytes val 0) := by
    unfold Crate.SliceUVarint
    rw [hfind, ok_bind, hcr, ok_bind]
    unfold Crate.sliceAt
    show (pure ((D.drop 0).take n) : Except CrateErr (List Nat)) = _
    rw [List.drop_zero, hD, hn, List.take_left' rfl]
    exact pure_eq_ok _
  have hdisc : (Crate.mk D 10 n 0 FlagDefault).DiscardUVarint =
      Except.ok ((Crate.mk D 10 n 0 FlagDefault).DiscardN n, n) := by
    unfold Crate.DiscardUVarint
    rw [hfind, ok_bind]
    exact pure_eq_ok _
  have hmod : ((Crate.mk D 10 n 0 FlagDefault).read + n) % W64 = n := by
    show (0 + n) % W64 = n
    have hW : W64 = 2 ^ 64 := rfl
    rw [hW]
    omega
  have hdiscread : ((Crate.mk D 10 n 0 FlagDefault).DiscardN n).read = n := by
    unfold Crate.DiscardN
    simp only [hmod]
    show (if n > n then n else n) = n
    rw [if_neg (by omega)]
  exact ⟨Crate.mk D 10 n 0 FlagDefault, n, uvarintBytes val 0,
    (Crate.mk D 10 n 0 FlagDefault).DiscardN n,
    hw2, rfl, rfl, hslice, hn.symm, hdisc, hdiscread⟩
end LiteCrate

namespace LiteCrate

/-- A value that fits in seven bits encodes as the single byte `[v]`. -/
theorem uvarintBytes_single (v : Nat) (h1 : 0 < v) (h2 : v ≤ 127) :
    uvarintBytes v 0 = [v] := by
  rw [uvarintBytes, if_pos (Or.inl h1)]
  have htail : uvarintBytes (v >>> countShift) 1 = [] := by
    apply uvarintBytes_nil
    simp only [countShift, Nat.shiftRight_eq_div_pow]
    omega
  rw [htail]
  have hmask : countMasks.getD 0 0 = 127 := rfl
  have hcm : countMask = 127 := rfl
  rw [hmask, if_neg (by omega)]
  have hmod : v % 256 = v := Nat.mod_eq_of_lt (by omega)
  rw [hmod, and_127_eq_mod, Nat.mod_eq_of_lt (by omega)]
  simp

/-- Writing a string with its length counter on a fresh crate, then
slicing and discarding it at the start: the write-cursor delta is
`payload + 1` (one counter byte), the slice is the payload only (its
length is the delta minus the counter byte), and the discard advances the
read cursor by the full delta. -/
theorem stringWithCounter_slice_discard (payload : List Nat)
    (hL : payload.length ≤ 126) :
    ∃ c' c'',
      (NewCrate (payload.length + 1) FlagDefault).WriteStringWithCounter payload =
        Except.ok c' ∧
      c'.write = payload.length + 1 ∧ c'.read = 0 ∧
      c'.SliceStringWithCounter = Except.ok payload ∧
      c'.DiscardStringWithCounter = Except.ok c'' ∧ c''.read = payload.length + 1 := by
  set L := payload.length with hLdef
  have hW : W64 = 2 ^ 64 := rfl
  have huvb : uvarintBytes (L + 1) 0 = [L + 1] :=
    uvarintBytes_single (L + 1) (by omega) (by omega)
  have hNC : (NewCrate (L + 1) FlagDefault).data.length = L + 1 := by simp [NewCrate]
  have hw := WriteUVarint_spec (NewCrate (L + 1) FlagDefault) (L + 1)
    (by norm_num; omega) (by rw [huvb, hNC]; simp [NewCrate]) (by rw [hNC, hW]; omega)
  rw [huvb] at hw
  have hstore : storeBytes (NewCrate (L + 1) FlagDefault).data
      (NewCrate (L + 1) FlagDefault).write [L + 1] = (L + 1) :: List.replicate L 0 := by
    rw [show (NewCrate (L + 1) FlagDefault).write = 0 from rfl,
      show (NewCrate (L + 1) FlagDefault).data = List.replicate (L + 1) 0 from rfl]
    rw [storeBytes_spec _ _ _ (by simp)]
    rw [show List.replicate (L + 1) (0 : Nat) = 0 :: List.replicate L 0 from rfl]
    simp
  rw [hstore] at hw
  have hw2 : (NewCrate (L + 1) FlagDefault).WriteUVarint (L + 1) =
      Except.ok (Crate.mk ((L + 1) :: List.replicate L 0) (L + 1) 1 0 FlagDefault, 1) := by
    rw [hw]
    simp [NewCrate]
  have hcw2 : (Crate.mk ((L + 1) :: List.replicate L 0) (L + 1) 1 0
      FlagDefault).CheckWrite L =
      Except.ok (Crate.mk ((L + 1) :: List.replicate L 0) (L + 1) 1 0 FlagDefault) := by
    apply CheckWrite_ok
    · show 1 + L ≤ ((L + 1) :: List.replicate L 0).length
      simp only [List.length_cons, List.length_replicate]
      omega
    · show ((L + 1) :: List.replicate L 0).length < W64
      simp only [List.length_cons, List.length_replicate]
      rw [hW]
      omega
    · show 0 < 1 + L
      omega
  have hstore2 : storeBytes ((L + 1) :: List.replicate L 0) 1 payload =
      (L + 1) :: payload := by
    rw [storeBytes_spec _ _ _
      (by simp only [List.length_cons, List.length_replicate]; omega)]
    rw [show ((L + 1) :: List.replicate L 0).take 1 = [L + 1] from rfl]
    rw [List.drop_eq_nil_of_le
      (by simp only [List.length_cons, List.length_replicate]; omega)]
    simp
  have hws : (Crate.mk ((L + 1) :: List.replicate L 0) (L + 1) 1 0
      FlagDefault).WriteString payload =
      Except.ok (Crate.mk ((L + 1) :: payload) (L + 1) (1 + L) 0 FlagDefault) := by
    unfold Crate.WriteString
    show (do
      let c ← (Crate.mk ((L + 1) :: List.replicate L 0) (L + 1) 1 0
        FlagDefault).CheckWrite L
      pure { c with data := storeBytes c.data c.write payload,
                    write := c.write + L }) = _
    rw [hcw2, ok_bind]
    simp only []
    rw [hstore2]
    exact pure_eq_ok _
  have hmain : (NewCrate (L + 1) FlagDefault).WriteStringWithCounter payload =
      Except.ok (Crate.mk ((L + 1) :: payload) (L + 1) (1 + L) 0 FlagDefault) := by
    unfold Crate.WriteStringWithCounter Crate.WriteLengthOrNil
    show (do
      let (c, _) ← (NewCrate (L + 1) FlagDefault).WriteUVarint (L + 1)
      c.WriteString payload) = _
    rw [hw2, ok_bind]
    simp only []
    exact hws
  set c' := Crate.mk ((L + 1) :: payload) (L + 1) (1 + L) 0 FlagDefault with hc'
  have hr := ReadUVarint_spec c' (L + 1) payload (by norm_num; omega)
    (by
      show ((L + 1) :: payload).drop 0 = uvarintBytes (L + 1) 0 ++ payload
      rw [List.drop_zero, huvb]
      simp)
    (by
      rw [huvb]
      show 0 + [L + 1].length ≤ 1 + L
      simp)
    (by
      show 1 + L ≤ ((L + 1) :: payload).length
      simp only [List.length_cons]
      omega)
    (by
      show ((L + 1) :: payload).length < W64
      simp only [List.length_cons]
      rw [hW]
      omega)
  rw [huvb] at hr
  simp only [List.length_singleton] at hr
  have hpeek : c'.PeekLengthOrNil = Except.ok (L, false, 1) := by
    unfold Crate.PeekLengthOrNil Crate.PeekUVarint
    rw [hr]
    simp only [ok_bind, pure_bind, pure_eq_ok]
    simp
  have hbacking : c'.backing = (L + 1) :: payload := by
    unfold Crate.backing
    show ((L + 1) :: payload) ++ List.replicate ((L + 1) - ((L + 1) :: payload).length) 0 =
      (L + 1) :: payload
    simp only [List.length_cons, ← hLdef, Nat.sub_self, List.replicate_zero, List.append_nil]
  have hslice : c'.SliceStringWithCounter = Except.ok payload := by
    unfold Crate.SliceStringWithCounter
    rw [hpeek, ok_bind]
    simp only []
    rw [if_pos (by show 0 + 1 + L ≤ L + 1; omega)]
    rw [hbacking]
    show (pure ((((L + 1) :: payload).drop (0 + 1)).take L) : Except CrateErr (List Nat)) = _
    rw [show ((L + 1) :: payload).drop (0 + 1) = payload from rfl, hLdef, List.take_length]
    exact pure_eq_ok _
  have hread : c'.ReadLengthOrNil =
      Except.ok ({ c' with read := c'.read + 1 }, L, false, 1) := by
    unfold Crate.ReadLengthOrNil
    rw [hpeek, ok_bind]
    exact pure_eq_ok _
  have hdisc : c'.DiscardStringWithCounter =
      Except.ok (({ c' with read := c'.read + 1 } : Crate).DiscardN L) := by
    unfold Crate.DiscardStringWithCounter
    rw [hread, ok_bind]
    exact pure_eq_ok _
  have hmod : (({ c' with read := c'.read + 1 } : Crate).read + L) % W64 = 1 + L := by
    show (0 + 1 + L) % W64 = 1 + L
    rw [hW]
    omega
  have hdiscread : (({ c' with read := c'.read + 1 } : Crate).DiscardN L).read = L + 1 := by
    unfold Crate.DiscardN
    simp only [hmod]
    show (if 1 + L > 1 + L then 1 + L else 1 + L) = L + 1
    rw [if_neg (by omega)]
    omega
  exact ⟨c', ({ c' with read := c'.read + 1 } : Crate).DiscardN L, hmain,
    (by show 1 + L = L + 1; omega), rfl, hslice, hdisc, hdiscread⟩

end LiteCrate

namespace LiteCrate

/-- Fixed-width representative: writing a uint8, the slice at the read
position is exactly one byte (the write-cursor delta) and the discard
advances the read cursor by one. -/
theorem u8_slice_discard (val : Nat) :
    ∃ c' s, (NewCrate 1 FlagDefault).WriteU8 val = Except.ok c' ∧
      c'.write = 1 ∧ c'.read = 0 ∧
      c'.SliceU8 = Except.ok s ∧ s.length = 1 ∧ (c'.DiscardU8).read = 1 := by
  have hcw : (NewCrate 1 FlagDefault).CheckWrite 1 = Except.ok (NewCrate 1 FlagDefault) := by
    decide
  have hwrite : (NewCrate 1 FlagDefault).WriteU8 val =
      Except.ok (Crate.mk [val] 1 1 0 FlagDefault) := by
    unfold Crate.WriteU8
    rw [hcw, ok_bind]
    rfl
  have hcr : (Crate.mk [val] 1 1 0 FlagDefault).CheckRead 1 = Except.ok () := by
    apply CheckRead_ok <;> simp [W64]
  have hslice : (Crate.mk [val] 1 1 0 FlagDefault).SliceU8 = Except.ok [val] := by
    unfold Crate.SliceU8
    rw [hcr, ok_bind]
    rfl
  have hdisc : ((Crate.mk [val] 1 1 0 FlagDefault).DiscardU8).read = 1 := by
    unfold Crate.DiscardU8 Crate.DiscardN
    norm_num [W64]
  exact ⟨Crate.mk [val] 1 1 0 FlagDefault, [val], hwrite, rfl, rfl, hslice, rfl, hdisc⟩

/-- Writing a non-nil, non-empty byte slice with its length counter on a
fresh crate: the write delta is `payload + 1`, the slice is the payload
only, the discard advances by the full delta. -/
theorem bytesWithCounter_slice_discard (payload : List Nat)
    (h0 : 0 < payload.length) (hL : payload.length ≤ 126) :
    ∃ c' c'',
      (NewCrate (payload.length + 1) FlagDefault).WriteBytesWithCounter (some payload) =
        Except.ok c' ∧
      c'.write = payload.length + 1 ∧ c'.read = 0 ∧
      c'.SliceBytesWithCounter = Except.ok payload ∧
      c'.DiscardBytesWithCounter = Except.ok c'' ∧ c''.read = payload.length + 1 := by
  set L := payload.length with hLdef
  have hW : W64 = 2 ^ 64 := rfl
  have huvb : uvarintBytes (L + 1) 0 = [L + 1] :=
    uvarintBytes_single (L + 1) (by omega) (by omega)
  have hNC : (NewCrate (L + 1) FlagDefault).data.length = L + 1 := by simp [NewCrate]
  have hw := WriteUVarint_spec (NewCrate (L + 1) FlagDefault) (L + 1)
    (by norm_num; omega) (by rw [huvb, hNC]; simp [NewCrate]) (by rw [hNC, hW]; omega)
  rw [huvb] at hw
  have hstore : storeBytes (NewCrate (L + 1) FlagDefault).data
      (NewCrate (L + 1) FlagDefault).write [L + 1] = (L + 1) :: List.replicate L 0 := by
    rw [show (NewCrate (L + 1) FlagDefault).write = 0 from rfl,
      show (NewCrate (L + 1) FlagDefault).data = List.replicate (L + 1) 0 from rfl]
    rw [storeBytes_spec _ _ _ (by simp)]
    rw [show List.replicate (L + 1) (0 : Nat) = 0 :: List.replicate L 0 from rfl]
    simp
  rw [hstore] at hw
  have hw2 : (NewCrate (L + 1) FlagDefault).WriteUVarint (L + 1) =
      Except.ok (Crate.mk ((L + 1) :: List.replicate L 0) (L + 1) 1 0 FlagDefault, 1) := by
    rw [hw]
    simp [NewCrate]
  have hcw2 : (Crate.mk ((L + 1) :: List.replicate L 0) (L + 1) 1 0
      FlagDefault).CheckWrite L =
      Except.ok (Crate.mk ((L + 1) :: List.replicate L 0) (L + 1) 1 0 FlagDefault) := by
    apply CheckWrite_ok
    · show 1 + L ≤ ((L + 1) :: List.replicate L 0).length
      simp only [List.length_cons, List.length_replicate]
      omega
    · show ((L + 1) :: List.replicate L 0).length < W64
      simp only [List.length_cons, List.length_replicate]
      rw [hW]
      omega
    · show 0 < 1 + L
      omega
  have hstore2 : storeBytes ((L + 1) :: List.replicate L 0) 1 payload =
      (L + 1) :: payload := by
    rw [storeBytes_spec _ _ _
      (by simp only [List.length_cons, List.length_replicate]; omega)]
    rw [show ((L + 1) :: List.replicate L 0).take 1 = [L + 1] from rfl]
    rw [List.drop_eq_nil_of_le
      (by simp only [List.length_cons, List.length_replicate]; omega)]
    simp
  have hwb : (Crate.mk ((L + 1) :: List.replicate L 0) (L + 1) 1 0
      FlagDefault).WriteBytes (some payload) =
      Except.ok (Crate.mk ((L + 1) :: payload) (L + 1) (1 + L) 0 FlagDefault) := by
    unfold Crate.WriteBytes
    simp only [Option.getD_some]
    rw [if_neg (by
      push_neg
      exact ⟨Option.some_ne_none payload, by omega⟩)]
    rw [hcw2, ok_bind]
    simp only []
    rw [hstore2]
    exact pure_eq_ok _
  have hmain : (NewCrate (L + 1) FlagDefault).WriteBytesWithCounter (some payload) =
      Except.ok (Crate.mk ((L + 1) :: payload) (L + 1) (1 + L) 0 FlagDefault) := by
    unfold Crate.WriteBytesWithCounter Crate.WriteLengthOrNil
    show (do
      let (c, _) ← (NewCrate (L + 1) FlagDefault).WriteUVarint (L + 1)
      c.WriteBytes (some payload)) = _
    rw [hw2, ok_bind]
    simp only []
    exact hwb
  set c' := Crate.mk ((L + 1) :: payload) (L + 1) (1 + L) 0 FlagDefault with hc'
  have hr := ReadUVarint_spec c' (L + 1) payload (by norm_num; omega)
    (by
      show ((L + 1) :: payload).drop 0 = uvarintBytes (L + 1) 0 ++ payload
      rw [List.drop_zero, huvb]
      simp)
    (by
      rw [huvb]
      show 0 + [L + 1].length ≤ 1 + L
      simp)
    (by
      show 1 + L ≤ ((L + 1) :: payload).length
      simp only [List.length_cons]
      omega)
    (by
      show ((L + 1) :: payload).length < W64
      simp only [List.length_cons]
      rw [hW]
      omega)
  rw [huvb] at hr
  simp only [List.length_singleton] at hr
  have hpeek : c'.PeekLengthOrNil = Except.ok (L, false, 1) := by
    unfold Crate.PeekLengthOrNil Crate.PeekUVarint
    rw [hr]
    simp only [ok_bind, pure_bind, pure_eq_ok]
    simp
  have hbacking : c'.backing = (L + 1) :: payload := by
    unfold Crate.backing
    show ((L + 1) :: payload) ++ List.replicate ((L + 1) - ((L + 1) :: payload).length) 0 =
      (L + 1) :: payload
    simp only [List.length_cons, ← hLdef, Nat.sub_self, List.replicate_zero, List.append_nil]
  have hslice : c'.SliceBytesWithCounter = Except.ok payload := by
    unfold Crate.SliceBytesWithCounter
    rw [hpeek, ok_bind]
    simp only []
    rw [if_pos (by show 0 + 1 + L ≤ L + 1; omega)]
    rw [hbacking]
    show (pure ((((L + 1) :: payload).drop (0 + 1)).take L) : Except CrateErr (List Nat)) = _
    rw [show ((L + 1) :: payload).drop (0 + 1) = payload from rfl, hLdef, List.take_length]
    exact pure_eq_ok _
  have hread : c'.ReadLengthOrNil =
      Except.ok ({ c' with read := c'.read + 1 }, L, false, 1) := by
    unfold Crate.ReadLengthOrNil
    rw [hpeek, ok_bind]
    exact pure_eq_ok _
  have hdisc : c'.DiscardBytesWithCounter =
      Except.ok (({ c' with read := c'.read + 1 } : Crate).DiscardN L) := by
    unfold Crate.DiscardBytesWithCounter
    rw [hread, ok_bind]
    exact pure_eq_ok _
  have hmod : (({ c' with read := c'.read + 1 } : Crate).read + L) % W64 = 1 + L := by
    show (0 + 1 + L) % W64 = 1 + L
    rw [hW]
    omega
  have hdiscread : (({ c' with read := c'.read + 1 } : Crate).DiscardN L).read = L + 1 := by
    unfold Crate.DiscardN
    simp only [hmod]
    show (if 1 + L > 1 + L then 1 + L else 1 + L) = L + 1
    rw [if_neg (by omega)]
    omega
  exact ⟨c', ({ c' with read := c'.read + 1 } : Crate).DiscardN L, hmain,
    (by show 1 + L = L + 1; omega), rfl, hslice, hdisc, hdiscread⟩

end LiteCrate

namespace LiteCrate

/-- C3 counterexample: for the length-counter-prefixed string `"A"`,
the write-cursor delta is 2 (counter byte + payload byte), but the
Slice-mode operation returns only the payload — its length is 1, not 2:
the counter bytes are excluded from the slice. -/
theorem C3_slice_exactness_cex :
    ∃ c' s, (NewCrate 2 FlagDefault).WriteStringWithCounter [65] = Except.ok c' ∧
      c'.write - (NewCrate 2 FlagDefault).write = 2 ∧ c'.read = 0 ∧
      c'.SliceStringWithCounter = Except.ok s ∧ s.length ≠ 2 := by
  obtain ⟨c', c'', hw, hwr, hrd, hs, _, _⟩ :=
    stringWithCounter_slice_discard [65] (by norm_num)
  have he : ([65] : List Nat).length + 1 = 2 := rfl
  rw [he] at hw hwr
  refine ⟨c', [65], hw, ?_, hrd, hs, by norm_num⟩
  rw [hwr]
  simp [NewCrate]
/-- C3 (amended): slice exactness holds for fixed-width values (uint8
shown) and for raw uvarints — `len(Slice())` equals the write-cursor
delta and `Discard()` advances the read cursor by the same count — but
for length-counter-prefixed strings and byte slices the Slice operation
returns the payload only: its length is the write delta minus the counter
bytes, while Discard still advances by the full delta. -/
theorem C3_slice_exactness :
    (∀ val : Nat, ∃ c' s, (NewCrate 1 FlagDefault).WriteU8 val = Except.ok c' ∧
      c'.write = 1 ∧ c'.read = 0 ∧
      c'.SliceU8 = Except.ok s ∧ s.length = 1 ∧ (c'.DiscardU8).read = 1) ∧
    (∀ val : Nat, val < 2 ^ 63 → ∃ c' n s c'',
      (NewCrate 10 FlagDefault).WriteUVarint val = Except.ok (c', n) ∧
      c'.write = n ∧ c'.read = 0 ∧
      c'.SliceUVarint = Except.ok s ∧ s.length = n ∧
      c'.DiscardUVarint = Except.ok (c'', n) ∧ c''.read = n) ∧
    (∀ payload : List Nat, payload.length ≤ 126 → ∃ c' c'',
      (NewCrate (payload.length + 1) FlagDefault).WriteStringWithCounter payload =
        Except.ok c' ∧
      c'.write = payload.length + 1 ∧ c'.read = 0 ∧
      c'.SliceStringWithCounter = Except.ok payload ∧
      c'.DiscardStringWithCounter = Except.ok c'' ∧ c''.read = payload.length + 1) ∧
    (∀ payload : List Nat, 0 < payload.length → payload.length ≤ 126 → ∃ c' c'',
      (NewCrate (payload.length + 1) FlagDefault).WriteBytesWithCounter (some payload) =
        Except.ok c' ∧
      c'.write = payload.length + 1 ∧ c'.read = 0 ∧
      c'.SliceBytesWithCounter = Except.ok payload ∧
      c'.DiscardBytesWithCounter = Except.ok c'' ∧ c''.read = payload.length + 1) :=
  ⟨u8_slice_discard, uvarint_slice_discard, stringWithCounter_slice_discard,
    bytesWithCounter_slice_discard⟩

/-- C3 witness: the amended slice-exactness at `uint8 7`, `uvarint 300`,
the string `"A"` and the byte slice `[1, 2]`. -/
theorem C3_slice_exactness_witness :
    (∃ c' s, (NewCrate 1 FlagDefault).WriteU8 7 = Except.ok c' ∧
      c'.write = 1 ∧ c'.read = 0 ∧
      c'.SliceU8 = Except.ok s ∧ s.length = 1 ∧ (c'.DiscardU8).read = 1) ∧
    (∃ c' n s c'',
      (NewCrate 10 FlagDefault).WriteUVarint 300 = Except.ok (c', n) ∧
      c'.write = n ∧ c'.read = 0 ∧
      c'.SliceUVarint = Except.ok s ∧ s.length = n ∧
      c'.DiscardUVarint = Except.ok (c'', n) ∧ c''.read = n) ∧
    (∃ c' c'',
      (NewCrate ([65].length + 1) FlagDefault).WriteStringWithCounter [65] =
        Except.ok c' ∧
      c'.write = [65].length + 1 ∧ c'.read = 0 ∧
      c'.SliceStringWithCounter = Except.ok [65] ∧
      c'.DiscardStringWithCounter = Except.ok c'' ∧ c''.read = [65].length + 1) ∧
    (∃ c' c'',
      (NewCrate ([1, 2].length + 1) FlagDefault).WriteBytesWithCounter (some [1, 2]) =
        Except.ok c' ∧
      c'.write = [1, 2].length + 1 ∧ c'.read = 0 ∧
      c'.SliceBytesWithCounter = Except.ok [1, 2] ∧
      c'.DiscardBytesWithCounter = Except.ok c'' ∧ c''.read = [1, 2].length + 1) :=
  ⟨C3_slice_exactness.1 7,
   C3_slice_exactness.2.1 300 (by norm_num),
   C3_slice_exactness.2.2.1 [65] (by norm_num),
   C3_slice_exactness.2.2.2 [1, 2] (by norm_num) (by norm_num)⟩

end LiteCrate

namespace LiteCrate

theorem write_counter_3 :
    (NewCrate 3 FlagDefault).WriteUVarint 3 =
      Except.ok (Crate.mk [3, 0, 0] 3 1 0 FlagDefault, 1) := by
  unfold Crate.WriteUVarint
  rw [writeUVarintLoop, dif_pos (by norm_num)]
  have hcw : (NewCrate 3 FlagDefault).CheckWrite 1 =
      Except.ok (NewCrate 3 FlagDefault) := by decide
  rw [hcw, ok_bind]
  show writeUVarintLoop (Crate.mk [3, 0, 0] 3 1 0 FlagDefault) 0 1 = _
  rw [writeUVarintLoop, dif_neg (by norm_num)]
  rfl

theorem read_counter_3 :
    (Crate.mk [3, 5, 6] 3 3 0 FlagDefault).ReadUVarint =
      Except.ok (Crate.mk [3, 5, 6] 3 3 1 FlagDefault, 3, 1) := by
  unfold Crate.ReadUVarint
  rw [readUVarintLoop_step _ _ _ (by norm_num) (by norm_num) (by norm_num)
    (by norm_num [W64])]
  show readUVarintLoop (Crate.mk [3, 5, 6] 3 3 1 FlagDefault) 3 1 false = _
  rw [readUVarintLoop, if_neg (by simp)]
  rfl

theorem accessLengthOrNil_write_eval :
    (NewCrate 3 FlagDefault).AccessLengthOrNil 2 false AccessMode.write =
      Except.ok (Crate.mk [3, 0, 0] 3 1 0 FlagDefault, 2, false, 1, []) := by
  unfold Crate.AccessLengthOrNil
  show (do
    let (c, n) ← (NewCrate 3 FlagDefault).WriteUVarint 3
    pure (c, 2, false, n, [])) = _
  rw [write_counter_3, ok_bind]
  simp only [pure_eq_ok]

theorem writeLoop_eval :
    accessListWriteLoop Crate.AccessU8 AccessMode.write
      (Crate.mk [3, 0, 0] 3 1 0 FlagDefault) [5, 6] =
      Except.ok (Crate.mk [3, 5, 6] 3 3 0 FlagDefault) := by
  decide

theorem access_write_slice :
    AccessSlice (NewCrate 3 FlagDefault) AccessMode.write (some [5, 6]) Crate.AccessU8 0 =
      Except.ok (Crate.mk [3, 5, 6] 3 3 0 FlagDefault, some [5, 6], []) := by
  unfold AccessSlice
  rw [show ((some [5, 6] : Option (List Nat)).getD []).length = 2 from rfl]
  rw [show (some [5, 6] : Option (List Nat)).isNone = false from rfl]
  simp only []
  rw [accessLengthOrNil_write_eval, ok_bind]
  simp only [Option.getD_some]
  rw [if_neg (by simp)]
  rw [writeLoop_eval, ok_bind]
  simp only [pure_eq_ok]
end LiteCrate

namespace LiteCrate

theorem read_loop_eval :
    accessListReadLoop Crate.AccessU8 0 AccessMode.read
      (Crate.mk [3, 5, 6] 3 3 1 FlagDefault) 0 2 [0, 0] =
      Except.ok (Crate.mk [3, 5, 6] 3 3 3 FlagDefault, [5, 6]) := by
  rw [accessListReadLoop, dif_pos (by norm_num)]
  have h0 : (Crate.mk [3, 5, 6] 3 3 1 FlagDefault).AccessU8 (some 0) AccessMode.read =
      Except.ok (Crate.mk [3, 5, 6] 3 3 2 FlagDefault, some 5, []) := by decide
  rw [h0, ok_bind]
  show accessListReadLoop Crate.AccessU8 0 AccessMode.read
    (Crate.mk [3, 5, 6] 3 3 2 FlagDefault) 1 2 [5, 0] = _
  rw [accessListReadLoop, dif_pos (by norm_num)]
  have h1 : (Crate.mk [3, 5, 6] 3 3 2 FlagDefault).AccessU8 (some 0) AccessMode.read =
      Except.ok (Crate.mk [3, 5, 6] 3 3 3 FlagDefault, some 6, []) := by decide
  rw [h1, ok_bind]
  show accessListReadLoop Crate.AccessU8 0 AccessMode.read
    (Crate.mk [3, 5, 6] 3 3 3 FlagDefault) 2 2 [5, 6] = _
  rw [accessListReadLoop, dif_neg (by norm_num)]
  rfl

theorem peek_loop_eval :
    accessListReadLoop Crate.AccessU8 0 AccessMode.peek
      (Crate.mk [3, 5, 6] 3 3 0 FlagDefault) 0 2 [0, 0] =
      Except.ok (Crate.mk [3, 5, 6] 3 3 0 FlagDefault, [3, 3]) := by
  rw [accessListReadLoop, dif_pos (by norm_num)]
  have h0 : (Crate.mk [3, 5, 6] 3 3 0 FlagDefault).AccessU8 (some 0) AccessMode.peek =
      Except.ok (Crate.mk [3, 5, 6] 3 3 0 FlagDefault, some 3, []) := by decide
  rw [h0, ok_bind]
  show accessListReadLoop Crate.AccessU8 0 AccessMode.peek
    (Crate.mk [3, 5, 6] 3 3 0 FlagDefault) 1 2 [3, 0] = _
  rw [accessListReadLoop, dif_pos (by norm_num)]
  rw [h0, ok_bind]
  show accessListReadLoop Crate.AccessU8 0 AccessMode.peek
    (Crate.mk [3, 5, 6] 3 3 0 FlagDefault) 2 2 [3, 3] = _
  rw [accessListReadLoop, dif_neg (by norm_num)]
  rfl

theorem accessLengthOrNil_read_eval :
    (Crate.mk [3, 5, 6] 3 3 0 FlagDefault).AccessLengthOrNil 0 true AccessMode.read =
      Except.ok (Crate.mk [3, 5, 6] 3 3 1 FlagDefault, 2, false, 1, []) := by
  unfold Crate.AccessLengthOrNil Crate.ReadLengthOrNil Crate.PeekLengthOrNil
    Crate.PeekUVarint
  rw [read_counter_3]
  simp only [ok_bind, pure_bind, pure_eq_ok]
  norm_num

theorem access_read_slice :
    AccessSlice (Crate.mk [3, 5, 6] 3 3 0 FlagDefault) AccessMode.read none Crate.AccessU8 0 =
      Except.ok (Crate.mk [3, 5, 6] 3 3 3 FlagDefault, some [5, 6], []) := by
  unfold AccessSlice
  rw [show ((none : Option (List Nat)).getD []).length = 0 from rfl]
  rw [show (none : Option (List Nat)).isNone = true from rfl]
  simp only []
  rw [accessLengthOrNil_read_eval, ok_bind]
  simp only []
  rw [if_neg (by simp)]
  rw [show List.replicate 2 (0 : Nat) = [0, 0] from rfl]
  rw [read_loop_eval, ok_bind]
  simp only [pure_eq_ok]
theorem accessLengthOrNil_peek_eval :
    (Crate.mk [3, 5, 6] 3 3 0 FlagDefault).AccessLengthOrNil 0 true AccessMode.peek =
      Except.ok (Crate.mk [3, 5, 6] 3 3 0 FlagDefault, 2, false, 1, []) := by
  unfold Crate.AccessLengthOrNil Crate.PeekLengthOrNil Crate.PeekUVarint
  rw [read_counter_3]
  simp only [ok_bind, pure_bind, pure_eq_ok]
  norm_num

theorem access_peek_slice :
    AccessSlice (Crate.mk [3, 5, 6] 3 3 0 FlagDefault) AccessMode.peek none Crate.AccessU8 0 =
      Except.ok (Crate.mk [3, 5, 6] 3 3 0 FlagDefault, some [3, 3], []) := by
  unfold AccessSlice
  rw [show ((none : Option (List Nat)).getD []).length = 0 from rfl]
  rw [show (none : Option (List Nat)).isNone = true from rfl]
  simp only []
  rw [accessLengthOrNil_peek_eval, ok_bind]
  simp only []
  rw [if_neg (by simp)]
  rw [show List.replicate 2 (0 : Nat) = [0, 0] from rfl]
  rw [peek_loop_eval, ok_bind]
  simp only [pure_eq_ok]
end LiteCrate

namespace LiteCrate

/-- C2: after writing the non-nil slice `[5, 6]` of uint8 through the
generic `AccessSlice` helper, Read mode returns `[5, 6]` and advances the
read cursor by 3, and Peek mode does leave the read cursor unchanged —
but it returns `[3, 3]`, not the `[5, 6]` that Read produces at the same
position: Peek mode is forwarded to the element codec, so every element
is decoded at the unmoved read cursor (the length-counter byte `3`). -/
theorem C2_peek_read_divergence :
    ∃ c1 : Crate,
      AccessSlice (NewCrate 3 FlagDefault) AccessMode.write (some [5, 6])
        Crate.AccessU8 0 = Except.ok (c1, some [5, 6], []) ∧
      (∃ cr, AccessSlice c1 AccessMode.read none Crate.AccessU8 0 =
        Except.ok (cr, some [5, 6], []) ∧ cr.read = c1.read + 3) ∧
      (∃ cp out, AccessSlice c1 AccessMode.peek none Crate.AccessU8 0 =
        Except.ok (cp, some out, []) ∧ cp.read = c1.read ∧ out = [3, 3] ∧
        out ≠ [5, 6]) :=
  ⟨Crate.mk [3, 5, 6] 3 3 0 FlagDefault, access_write_slice,
   ⟨Crate.mk [3, 5, 6] 3 3 3 FlagDefault, access_read_slice, rfl⟩,
   ⟨Crate.mk [3, 5, 6] 3 3 0 FlagDefault, [3, 3], access_peek_slice, rfl, rfl,
    by decide⟩⟩

end LiteCrate
